import Mathlib

/-!
# Soulbound identity subsystem — verification development

Shallow embedding of the identity anchoring and verification subsystem
(`hash-identity.mjs`, `registration-builder.mjs`, `chain-client.mjs`,
`verify-identity.mjs`, `update-identity.mjs`) together with proofs of its
specified properties.

Byte sequences are modelled as `List Nat` with values `< 256`; 64-bit
machine words are `Nat` reduced `% 2^64` where overflow matters.
-/

namespace Soulbound

/-! ## Keccak permutation and sponge

The document hasher calls Node's `createHash("sha3-256")`, i.e. the NIST
SHA3-256 variant (domain-separation suffix byte `0x06`).  The
Ethereum-compatible keccak-256 (as computed by `viem`, imported by the
chain client) is the original Keccak, suffix byte `0x01`.  Both are the
same sponge over Keccak-f[1600] at rate 136 bytes, differing only in the
padding suffix, so the sponge is implemented once, parameterised by the
suffix byte.  The round function is unrolled over a 25-lane state record
(lane (x, y) is field `s(x + 5*y)`) so that concrete digests evaluate
quickly inside the kernel. -/

def w64 : Nat := 2 ^ 64

def rotl64 (x n : Nat) : Nat :=
  ((x <<< n) ||| (x >>> (64 - n))) % w64

def roundConstants : List Nat :=
  [0x0000000000000001, 0x0000000000008082, 0x800000000000808a, 0x8000000080008000,
   0x000000000000808b, 0x0000000080000001, 0x8000000080008081, 0x8000000000008009,
   0x000000000000008a, 0x0000000000000088, 0x0000000080008009, 0x000000008000000a,
   0x000000008000808b, 0x800000000000008b, 0x8000000000008089, 0x8000000000008003,
   0x8000000000008002, 0x8000000000000080, 0x000000000000800a, 0x800000008000000a,
   0x8000000080008081, 0x8000000000008080, 0x0000000080000001, 0x8000000080008008]

structure KState where
  s0 : Nat
  s1 : Nat
  s2 : Nat
  s3 : Nat
  s4 : Nat
  s5 : Nat
  s6 : Nat
  s7 : Nat
  s8 : Nat
  s9 : Nat
  s10 : Nat
  s11 : Nat
  s12 : Nat
  s13 : Nat
  s14 : Nat
  s15 : Nat
  s16 : Nat
  s17 : Nat
  s18 : Nat
  s19 : Nat
  s20 : Nat
  s21 : Nat
  s22 : Nat
  s23 : Nat
  s24 : Nat

def kZero : KState := ⟨0, 0, 0, 0, 0, 0, 0, 0, 0, 0, 0, 0, 0, 0, 0, 0, 0, 0, 0, 0, 0, 0, 0, 0, 0⟩

def kRound (st : KState) (rc : Nat) : KState :=
  let c0 := st.s0 ^^^ st.s5 ^^^ st.s10 ^^^ st.s15 ^^^ st.s20
  let c1 := st.s1 ^^^ st.s6 ^^^ st.s11 ^^^ st.s16 ^^^ st.s21
  let c2 := st.s2 ^^^ st.s7 ^^^ st.s12 ^^^ st.s17 ^^^ st.s22
  let c3 := st.s3 ^^^ st.s8 ^^^ st.s13 ^^^ st.s18 ^^^ st.s23
  let c4 := st.s4 ^^^ st.s9 ^^^ st.s14 ^^^ st.s19 ^^^ st.s24
  let d0 := c4 ^^^ rotl64 c1 1
  let d1 := c0 ^^^ rotl64 c2 1
  let d2 := c1 ^^^ rotl64 c3 1
  let d3 := c2 ^^^ rotl64 c4 1
  let d4 := c3 ^^^ rotl64 c0 1
  let t0 := st.s0 ^^^ d0
  let t1 := st.s1 ^^^ d1
  let t2 := st.s2 ^^^ d2
  let t3 := st.s3 ^^^ d3
  let t4 := st.s4 ^^^ d4
  let t5 := st.s5 ^^^ d0
  let t6 := st.s6 ^^^ d1
  let t7 := st.s7 ^^^ d2
  let t8 := st.s8 ^^^ d3
  let t9 := st.s9 ^^^ d4
  let t10 := st.s10 ^^^ d0
  let t11 := st.s11 ^^^ d1
  let t12 := st.s12 ^^^ d2
  let t13 := st.s13 ^^^ d3
  let t14 := st.s14 ^^^ d4
  let t15 := st.s15 ^^^ d0
  let t16 := st.s16 ^^^ d1
  let t17 := st.s17 ^^^ d2
  let t18 := st.s18 ^^^ d3
  let t19 := st.s19 ^^^ d4
  let t20 := st.s20 ^^^ d0
  let t21 := st.s21 ^^^ d1
  let t22 := st.s22 ^^^ d2
  let t23 := st.s23 ^^^ d3
  let t24 := st.s24 ^^^ d4
  let b0 := rotl64 t0 0
  let b1 := rotl64 t6 44
  let b2 := rotl64 t12 43
  let b3 := rotl64 t18 21
  let b4 := rotl64 t24 14
  let b5 := rotl64 t3 28
  let b6 := rotl64 t9 20
  let b7 := rotl64 t10 3
  let b8 := rotl64 t16 45
  let b9 := rotl64 t22 61
  let b10 := rotl64 t1 1
  let b11 := rotl64 t7 6
  let b12 := rotl64 t13 25
  let b13 := rotl64 t19 8
  let b14 := rotl64 t20 18
  let b15 := rotl64 t4 27
  let b16 := rotl64 t5 36
  let b17 := rotl64 t11 10
  let b18 := rotl64 t17 15
  let b19 := rotl64 t23 56
  let b20 := rotl64 t2 62
  let b21 := rotl64 t8 55
  let b22 := rotl64 t14 39
  let b23 := rotl64 t15 41
  let b24 := rotl64 t21 2
  let u0 := b0 ^^^ ((b1 ^^^ (w64 - 1)) &&& b2)
  let u1 := b1 ^^^ ((b2 ^^^ (w64 - 1)) &&& b3)
  let u2 := b2 ^^^ ((b3 ^^^ (w64 - 1)) &&& b4)
  let u3 := b3 ^^^ ((b4 ^^^ (w64 - 1)) &&& b0)
  let u4 := b4 ^^^ ((b0 ^^^ (w64 - 1)) &&& b1)
  let u5 := b5 ^^^ ((b6 ^^^ (w64 - 1)) &&& b7)
  let u6 := b6 ^^^ ((b7 ^^^ (w64 - 1)) &&& b8)
  let u7 := b7 ^^^ ((b8 ^^^ (w64 - 1)) &&& b9)
  let u8 := b8 ^^^ ((b9 ^^^ (w64 - 1)) &&& b5)
  let u9 := b9 ^^^ ((b5 ^^^ (w64 - 1)) &&& b6)
  let u10 := b10 ^^^ ((b11 ^^^ (w64 - 1)) &&& b12)
  let u11 := b11 ^^^ ((b12 ^^^ (w64 - 1)) &&& b13)
  let u12 := b12 ^^^ ((b13 ^^^ (w64 - 1)) &&& b14)
  let u13 := b13 ^^^ ((b14 ^^^ (w64 - 1)) &&& b10)
  let u14 := b14 ^^^ ((b10 ^^^ (w64 - 1)) &&& b11)
  let u15 := b15 ^^^ ((b16 ^^^ (w64 - 1)) &&& b17)
  let u16 := b16 ^^^ ((b17 ^^^ (w64 - 1)) &&& b18)
  let u17 := b17 ^^^ ((b18 ^^^ (w64 - 1)) &&& b19)
  let u18 := b18 ^^^ ((b19 ^^^ (w64 - 1)) &&& b15)
  let u19 := b19 ^^^ ((b15 ^^^ (w64 - 1)) &&& b16)
  let u20 := b20 ^^^ ((b21 ^^^ (w64 - 1)) &&& b22)
  let u21 := b21 ^^^ ((b22 ^^^ (w64 - 1)) &&& b23)
  let u22 := b22 ^^^ ((b23 ^^^ (w64 - 1)) &&& b24)
  let u23 := b23 ^^^ ((b24 ^^^ (w64 - 1)) &&& b20)
  let u24 := b24 ^^^ ((b20 ^^^ (w64 - 1)) &&& b21)
  ⟨u0 ^^^ rc, u1, u2, u3, u4, u5, u6, u7, u8, u9, u10, u11, u12, u13, u14, u15, u16, u17, u18, u19, u20, u21, u22, u23, u24⟩


def keccakF (st : KState) : KState := roundConstants.foldl kRound st

/-- Multi-rate padding: append the domain suffix byte, zero-fill to a
multiple of the 136-byte rate, and set the top bit of the last byte. -/
def padSponge (d : Nat) (msg : List Nat) : List Nat :=
  let padLen := 136 - msg.length % 136
  if padLen = 1 then msg ++ [d + 0x80]
  else msg ++ [d] ++ List.replicate (padLen - 2) 0 ++ [0x80]

/-- Little-endian interpretation of up to 8 bytes as a 64-bit lane. -/
def bytesToLane (bs : List Nat) : Nat :=
  bs.foldr (fun b acc => b % 256 + 256 * acc) 0

def blockLane (block : List Nat) (i : Nat) : Nat :=
  bytesToLane ((block.drop (8 * i)).take 8)

/-- XOR a 136-byte block into the first 17 lanes, then permute. -/
def absorbBlock (st : KState) (block : List Nat) : KState :=
  let l := blockLane block
  keccakF ⟨st.s0 ^^^ l 0, st.s1 ^^^ l 1, st.s2 ^^^ l 2, st.s3 ^^^ l 3,
    st.s4 ^^^ l 4, st.s5 ^^^ l 5, st.s6 ^^^ l 6, st.s7 ^^^ l 7,
    st.s8 ^^^ l 8, st.s9 ^^^ l 9, st.s10 ^^^ l 10, st.s11 ^^^ l 11,
    st.s12 ^^^ l 12, st.s13 ^^^ l 13, st.s14 ^^^ l 14, st.s15 ^^^ l 15,
    st.s16 ^^^ l 16, st.s17, st.s18, st.s19, st.s20, st.s21, st.s22,
    st.s23, st.s24⟩

/-- Split a byte list into 136-byte blocks; the fuel argument bounds the
number of blocks (the list length suffices). -/
def chunks136 : Nat → List Nat → List (List Nat)
  | 0, _ => []
  | _, [] => []
  | Nat.succ fuel, bs => bs.take 136 :: chunks136 fuel (bs.drop 136)

def laneToBytes (l : Nat) : List Nat :=
  (List.range 8).map fun i => (l >>> (8 * i)) % 256

/-- The 256-bit Keccak sponge with domain suffix `d`: 32 output bytes. -/
def keccakSponge (d : Nat) (data : List Nat) : List Nat :=
  let padded := padSponge d data
  let st := (chunks136 padded.length padded).foldl absorbBlock kZero
  ([st.s0, st.s1, st.s2, st.s3].map laneToBytes).foldr (· ++ ·) []

def hexDigitChar (n : Nat) : Char :=
  if n < 10 then Char.ofNat (48 + n) else Char.ofNat (87 + n)

def byteToHex (b : Nat) : String :=
  String.mk [hexDigitChar (b / 16 % 16), hexDigitChar (b % 16)]

def bytesToHex (bs : List Nat) : String :=
  bs.foldl (fun acc b => acc ++ byteToHex b) ""

/-- `keccak256` as defined in `hash-identity.mjs`: despite its name it
computes `createHash("sha3-256")`, i.e. the NIST SHA3-256 digest
(suffix `0x06`), rendered as a 0x-prefixed lowercase hex string. -/
def keccak256 (data : List Nat) : String :=
  "0x" ++ bytesToHex (keccakSponge 6 data)

/-- Modelled from the spec: the on-chain-compatible keccak-256 digest
("the hash function must be the on-chain-compatible keccak-256 variant,
not a NIST SHA3-256 substitute") — the original Keccak, suffix `0x01`,
which in the source exists only via the `viem` dependency of
`chain-client.mjs`. -/
def ethKeccak256 (data : List Nat) : String :=
  "0x" ++ bytesToHex (keccakSponge 1 data)

/-! ## UTF-8 encoding (model of `Buffer.from(string)`) -/

def utf8EncodeChar (c : Char) : List Nat :=
  let n := c.toNat
  if n < 0x80 then [n]
  else if n < 0x800 then [0xC0 + n / 64, 0x80 + n % 64]
  else if n < 0x10000 then [0xE0 + n / 4096, 0x80 + n / 64 % 64, 0x80 + n % 64]
  else [0xF0 + n / 262144, 0x80 + n / 4096 % 64, 0x80 + n / 64 % 64, 0x80 + n % 64]

def utf8Bytes (s : String) : List Nat :=
  (s.data.map utf8EncodeChar).foldr (· ++ ·) []

end Soulbound


namespace Soulbound

/-! ## Identity file hashing (`hash-identity.mjs`) -/

/-- The three identity documents, `IDENTITY_FILES` in the source. -/
inductive IdFile
  | soulMd
  | userMd
  | identityMd
  deriving DecidableEq, Fintype

def IdFile.fileName : IdFile → String
  | .soulMd => "SOUL.md"
  | .userMd => "USER.md"
  | .identityMd => "IDENTITY.md"

def IDENTITY_FILES : List IdFile := [.soulMd, .userMd, .identityMd]

/-- Outcome of `readFile` on one identity file: the file's bytes, an
ENOENT ("not found") failure, or a failure with any other error code. -/
inductive ReadResult
  | content (bytes : List Nat)
  | enoent
  | ioError (msg : String)
  deriving DecidableEq

/-- The filesystem state one call observes: the workspace path and, for
each identity file, what `readFile` returns at that moment. -/
structure Workspace where
  root : String
  read : IdFile → ReadResult

def joinPath (a b : String) : String := a ++ "/" ++ b

/-- One per-file entry of the `hashIdentityFiles` result. -/
structure FileEntry where
  hash : Option String
  size : Nat
  fileExists : Bool
  path : String
  deriving DecidableEq

/-- The `_composite` entry of the `hashIdentityFiles` result. -/
structure CompositeEntry where
  hash : String
  files : List String
  deriving DecidableEq

structure HashResults where
  files : IdFile → FileEntry
  composite : CompositeEntry

/-- The all-zero placeholder digest `"0x" + "0".repeat(64)`. -/
def zeroHash : String :=
  "0x0000000000000000000000000000000000000000000000000000000000000000"

/-- JS `h || zeroHash`: the hash string when truthy (non-null and
non-empty), else the all-zero placeholder. -/
def jsOrZeroHash : Option String → String
  | some s => if s = "" then zeroHash else s
  | none => zeroHash

/-- One iteration of the read-and-hash loop: hash the file's bytes, or
record a missing entry on ENOENT, or rethrow any other read error. -/
def readEntry (ws : Workspace) (f : IdFile) : Except String FileEntry :=
  match ws.read f with
  | .content b => .ok ⟨some (keccak256 b), b.length, true, joinPath ws.root f.fileName⟩
  | .enoent => .ok ⟨none, 0, false, joinPath ws.root f.fileName⟩
  | .ioError e => .error e

/-- The pure tail of `hashIdentityFiles`: the composite hash over the
concatenated per-file hash strings in the fixed document order, a
missing file contributing the all-zero placeholder. -/
def mkHashResults (entries : IdFile → FileEntry) : HashResults :=
  let compositeInput := String.join (IDENTITY_FILES.map fun f => jsOrZeroHash (entries f).hash)
  ⟨entries, ⟨keccak256 (utf8Bytes compositeInput), IDENTITY_FILES.map IdFile.fileName⟩⟩

/-- `hashIdentityFiles`: hash each identity file in order (the first
non-ENOENT read error aborts the whole call), then compute the composite
entry. -/
def hashIdentityFiles (ws : Workspace) : Except String HashResults :=
  match readEntry ws .soulMd with
  | .error e => .error e
  | .ok s =>
    match readEntry ws .userMd with
    | .error e => .error e
    | .ok u =>
      match readEntry ws .identityMd with
      | .error e => .error e
      | .ok i =>
        .ok (mkHashResults fun f =>
          match f with
          | .soulMd => s
          | .userMd => u
          | .identityMd => i)

/-! ## Verification (`verifyIdentityFiles` in `hash-identity.mjs`) -/

inductive FileVerdict
  | VERIFIED
  | MISMATCH
  | MISSING
  | NO_CHAIN_HASH
  deriving DecidableEq

/-- The expected hashes supplied to verification: an optional hash
string per document plus an optional `_composite` value. -/
structure ExpectedHashes where
  file : IdFile → Option String
  composite : Option String

/-- JS truthiness of an optional string: absent, `null` and `""` are
falsy. -/
def strTruthy : Option String → Bool
  | some s => decide (s ≠ "")
  | none => false

/-- One iteration of the verification loop: the verdict for one file. -/
def verdictOf (loc : FileEntry) (expected : Option String) : FileVerdict :=
  if loc.fileExists = false then .MISSING
  else if strTruthy expected = false then .NO_CHAIN_HASH
  else if loc.hash = expected then .VERIFIED
  else .MISMATCH

/-- Whether a verdict sets `verified = false` in the loop. -/
def verdictFails : FileVerdict → Bool
  | .MISSING => true
  | .MISMATCH => true
  | .VERIFIED => false
  | .NO_CHAIN_HASH => false

structure VerifyResult where
  verified : Bool
  files : IdFile → FileVerdict
  composite : Option FileVerdict

/-- The pure tail of `verifyIdentityFiles` on the freshly computed local
hashes: per-file verdicts, then the composite check when an expected
composite is supplied (truthy). -/
def mkVerifyResult (lh : HashResults) (exp : ExpectedHashes) : VerifyResult :=
  let verdicts : IdFile → FileVerdict := fun f => verdictOf (lh.files f) (exp.file f)
  let v0 := IDENTITY_FILES.foldl (fun v f => if verdictFails (verdicts f) then false else v) true
  if strTruthy exp.composite then
    if some lh.composite.hash = exp.composite then ⟨v0, verdicts, some .VERIFIED⟩
    else ⟨false, verdicts, some .MISMATCH⟩
  else ⟨v0, verdicts, none⟩

/-- `verifyIdentityFiles`: recompute the local hashes, then compare them
with the expected ones. -/
def verifyIdentityFiles (ws : Workspace) (exp : ExpectedHashes) :
    Except String VerifyResult :=
  (hashIdentityFiles ws).map fun lh => mkVerifyResult lh exp

/-! ## Spec-side formulas -/

/-- Modelled from the spec: a document's contribution to the composite —
"each `h_i` is either the document's real hash or a fixed all-zero
placeholder digest if the document is missing". -/
def specDocHash (ws : Workspace) (f : IdFile) : String :=
  match ws.read f with
  | .content b => keccak256 b
  | _ => zeroHash

/-- Modelled from the spec: `CompositeHash = Hash(concat(h_1, h_2, h_3))`
over the fixed document order SOUL.md, USER.md, IDENTITY.md. -/
def specComposite (ws : Workspace) : String :=
  keccak256 (utf8Bytes
    (specDocHash ws .soulMd ++ specDocHash ws .userMd ++ specDocHash ws .identityMd))

/-- The per-file entry `hashIdentityFiles` records, as a function of the
filesystem state (the ioError case never reaches an `ok` result). -/
def entryOf (ws : Workspace) (f : IdFile) : FileEntry :=
  match ws.read f with
  | .content b => ⟨some (keccak256 b), b.length, true, joinPath ws.root f.fileName⟩
  | _ => ⟨none, 0, false, joinPath ws.root f.fileName⟩

end Soulbound

namespace Soulbound

/-! ## Concrete workspaces (sensitivity checks, witnesses) -/

def wsNone : Workspace := ⟨"/ws", fun _ => .enoent⟩

def wsSoulEmpty : Workspace :=
  ⟨"/ws", fun f => match f with | .soulMd => .content [] | _ => .enoent⟩

def wsSoulA : Workspace :=
  ⟨"/ws", fun f => match f with | .soulMd => .content [97] | _ => .enoent⟩

def wsSoulB : Workspace :=
  ⟨"/ws", fun f => match f with | .soulMd => .content [98] | _ => .enoent⟩

def wsAB : Workspace :=
  ⟨"/ws", fun f => match f with
    | .soulMd => .content [97]
    | .userMd => .content [98]
    | .identityMd => .enoent⟩

def wsBA : Workspace :=
  ⟨"/ws", fun f => match f with
    | .soulMd => .content [98]
    | .userMd => .content [97]
    | .identityMd => .enoent⟩

/-- A workspace whose USER.md read fails with a non-ENOENT error. -/
def wsPerm : Workspace :=
  ⟨"/ws", fun f => match f with
    | .soulMd => .content [97]
    | .userMd => .ioError "EACCES"
    | .identityMd => .enoent⟩

def dummyEntry : FileEntry := ⟨none, 0, false, ""⟩

def dummyHashResults : HashResults := ⟨fun _ => dummyEntry, ⟨"", []⟩⟩

/-- The concrete `hashIdentityFiles` result on `wsAB` (used by witnesses). -/
def lhAB : HashResults := (hashIdentityFiles wsAB).toOption.getD dummyHashResults

end Soulbound


namespace Soulbound

/-- Expected hashes equal to a freshly computed snapshot: each
document's just-computed hash and the just-computed composite. -/
def selfExpected (lh : HashResults) : ExpectedHashes :=
  ⟨fun f => (lh.files f).hash, some lh.composite.hash⟩

/-- Concrete expected-hash set used by the C3 witness: nothing recorded
for SOUL.md and IDENTITY.md, the real hash for USER.md. -/
def expC3 : ExpectedHashes :=
  ⟨fun f => match f with
    | .soulMd => none
    | .userMd => some (keccak256 [98])
    | .identityMd => none,
   none⟩

def dummyVerifyResult : VerifyResult := ⟨false, fun _ => .MISSING, none⟩

/-- The concrete `verifyIdentityFiles` result on `wsAB` / `expC3`. -/
def rC3 : VerifyResult := (verifyIdentityFiles wsAB expC3).toOption.getD dummyVerifyResult

end Soulbound


namespace Soulbound

/-- A workspace with all three documents present. -/
def wsABC : Workspace :=
  ⟨"/ws", fun f => match f with
    | .soulMd => .content [97]
    | .userMd => .content [98]
    | .identityMd => .content [99]⟩

/-- The concrete `hashIdentityFiles` result on `wsABC`. -/
def lhABC : HashResults := (hashIdentityFiles wsABC).toOption.getD dummyHashResults

end Soulbound


namespace Soulbound

/-! ## JSON values

Model of the JSON values handled by `JSON.stringify` / `JSON.parse`.
Numbers are modelled as integers (agent ids, byte sizes; timestamps and
chain ids in the registration document are strings); floating-point
values are outside the scope of the embedding, and the parser rejects
fraction/exponent forms accordingly.  Strings are Unicode scalar
sequences (lone UTF-16 surrogates are not representable). -/

inductive Json
  | null
  | bool (b : Bool)
  | num (n : Int)
  | str (s : String)
  | arr (xs : List Json)
  | obj (fields : List (String × Json))

/-- JSON string escaping as performed by `JSON.stringify`: `"` and `\`
get backslash escapes, the five named control characters get two-char
escapes, all other control characters become `\u00XX`, everything else
is emitted verbatim. -/
def escapeChar (c : Char) : List Char :=
  if c = '"' then ['\\', '"']
  else if c = '\\' then ['\\', '\\']
  else if c = Char.ofNat 8 then ['\\', 'b']
  else if c = Char.ofNat 9 then ['\\', 't']
  else if c = Char.ofNat 10 then ['\\', 'n']
  else if c = Char.ofNat 12 then ['\\', 'f']
  else if c = Char.ofNat 13 then ['\\', 'r']
  else if c.toNat < 0x20 then
    ['\\', 'u', '0', '0', hexDigitChar (c.toNat / 16), hexDigitChar (c.toNat % 16)]
  else [c]

def escapeList : List Char → List Char
  | [] => []
  | c :: cs => escapeChar c ++ escapeList cs

def quoteChars (s : String) : List Char := '"' :: (escapeList s.data ++ ['"'])

/-- Decimal digit values of a natural number, most significant first. -/
def natVals (n : Nat) : List Nat :=
  if h : n < 10 then [n]
  else natVals (n / 10) ++ [n % 10]
decreasing_by exact Nat.div_lt_self (by omega) (by omega)

/-- Decimal digit characters of a natural number. -/
def natDigits (n : Nat) : List Char :=
  (natVals n).map fun d => Char.ofNat (48 + d)

/-- Decimal representation of an integer (JS number printing restricted
to integers). -/
def intChars (i : Int) : List Char :=
  if i < 0 then '-' :: natDigits i.natAbs else natDigits i.natAbs

mutual

/-- `JSON.stringify` with no indent argument, as a character list. -/
def jChars : Json → List Char
  | .num n => intChars n
  | .str s => quoteChars s
  | .null => ['n', 'u', 'l', 'l']
  | .bool false => ['f', 'a', 'l', 's', 'e']
  | .bool true => ['t', 'r', 'u', 'e']
  | .arr xs => '[' :: (jCharsElems xs ++ [']'])
  | .obj fs => '\x7b' :: (jCharsFields fs ++ ['\x7d'])

def jCharsElems : List Json → List Char
  | [] => []
  | [x] => jChars x
  | x :: y :: xs => jChars x ++ ',' :: jCharsElems (y :: xs)

def jCharsFields : List (String × Json) → List Char
  | [] => []
  | [(k, v)] => quoteChars k ++ ':' :: jChars v
  | (k, v) :: f :: fs => quoteChars k ++ ':' :: jChars v ++ ',' :: jCharsFields (f :: fs)

end

def jsonStringify (x : Json) : String := String.mk (jChars x)

/-! ## JSON parsing (model of `JSON.parse`) -/

def hexVal (c : Char) : Option Nat :=
  if '0' ≤ c ∧ c ≤ '9' then some (c.toNat - 48)
  else if 'a' ≤ c ∧ c ≤ 'f' then some (c.toNat - 87)
  else if 'A' ≤ c ∧ c ≤ 'F' then some (c.toNat - 55)
  else none

def digitVal (c : Char) : Option Nat :=
  if '0' ≤ c ∧ c ≤ '9' then some (c.toNat - 48) else none

def isWsChar (c : Char) : Bool :=
  c = ' ' ∨ c = Char.ofNat 9 ∨ c = Char.ofNat 10 ∨ c = Char.ofNat 13

def skipWs : List Char → List Char
  | [] => []
  | c :: cs => if isWsChar c then skipWs cs else c :: cs

/-! ### JSON string body parsing

`parseStringBody` parses the body of a JSON string after the opening
quote, returning the decoded characters and the remainder after the
closing quote.  Surrogate escape pairs combine into one scalar; lone
surrogate escapes and raw control characters are rejected. -/

mutual

def parseStringBody : List Char → Option (List Char × List Char)
  | [] => none
  | c :: rest =>
    if c = '"' then some ([], rest)
    else if c = '\\' then parseEscape rest
    else if c.toNat < 0x20 then none
    else (parseStringBody rest).map fun p => (c :: p.1, p.2)
termination_by l => 2 * l.length
decreasing_by all_goals simp <;> omega

def parseEscape : List Char → Option (List Char × List Char)
  | '"' :: r => (parseStringBody r).map fun p => ('"' :: p.1, p.2)
  | '\\' :: r => (parseStringBody r).map fun p => ('\\' :: p.1, p.2)
  | '/' :: r => (parseStringBody r).map fun p => ('/' :: p.1, p.2)
  | 'b' :: r => (parseStringBody r).map fun p => (Char.ofNat 8 :: p.1, p.2)
  | 't' :: r => (parseStringBody r).map fun p => (Char.ofNat 9 :: p.1, p.2)
  | 'n' :: r => (parseStringBody r).map fun p => (Char.ofNat 10 :: p.1, p.2)
  | 'f' :: r => (parseStringBody r).map fun p => (Char.ofNat 12 :: p.1, p.2)
  | 'r' :: r => (parseStringBody r).map fun p => (Char.ofNat 13 :: p.1, p.2)
  | 'u' :: a :: b :: c :: d :: r =>
    match hexVal a, hexVal b, hexVal c, hexVal d with
    | some va, some vb, some vc, some vd =>
      parseUnicode (((va * 16 + vb) * 16 + vc) * 16 + vd) r
    | _, _, _, _ => none
  | _ => none
termination_by l => 2 * l.length + 1
decreasing_by all_goals simp <;> omega

def parseUnicode (n : Nat) (r : List Char) : Option (List Char × List Char) :=
  if 0xD800 ≤ n ∧ n < 0xDC00 then
    match r with
    | '\\' :: 'u' :: e :: f :: g :: h :: r2 =>
      match hexVal e, hexVal f, hexVal g, hexVal h with
      | some ve, some vf, some vg, some vh =>
        let m := ((ve * 16 + vf) * 16 + vg) * 16 + vh
        if 0xDC00 ≤ m ∧ m < 0xE000 then
          (parseStringBody r2).map fun p =>
            (Char.ofNat (0x10000 + (n - 0xD800) * 1024 + (m - 0xDC00)) :: p.1, p.2)
        else none
      | _, _, _, _ => none
    | _ => none
  else if 0xDC00 ≤ n ∧ n < 0xE000 then none
  else (parseStringBody r).map fun p => (Char.ofNat n :: p.1, p.2)
termination_by 2 * r.length + 1
decreasing_by all_goals simp <;> omega

end

/-- Longest prefix of decimal digits, as digit values. -/
def takeDigits : List Char → List Nat × List Char
  | [] => ([], [])
  | c :: cs =>
    match digitVal c with
    | some d => let p := takeDigits cs; (d :: p.1, p.2)
    | none => ([], c :: cs)

def digitsToNat (ds : List Nat) : Nat := ds.foldl (fun a d => a * 10 + d) 0

/-- Parse a JSON non-negative integer: at least one digit, no redundant
leading zero, and no fraction/exponent part (fractions are outside the
integer model). -/
def parseNatNum (cs : List Char) : Option (Nat × List Char) :=
  let p := takeDigits cs
  if p.1 = [] then none
  else if 1 < p.1.length ∧ p.1.headD 0 = 0 then none
  else if p.2.headD ' ' = '.' ∨ p.2.headD ' ' = 'e' ∨ p.2.headD ' ' = 'E' then none
  else some (digitsToNat p.1, p.2)

def parseNumber (cs : List Char) : Option (Json × List Char) :=
  if cs.headD ' ' = '-' then
    (parseNatNum (cs.drop 1)).map fun p => (.num (-(p.1 : Int)), p.2)
  else
    (parseNatNum cs).map fun p => (.num ((p.1 : Nat) : Int), p.2)

mutual

/-- Parse one JSON value; the fuel bounds the total number of value and
element steps and is consumed once per step. -/
def parseValue : Nat → List Char → Option (Json × List Char)
  | 0, _ => none
  | fuel + 1, cs0 =>
    let cs := skipWs cs0
    if cs.take 4 = ['n', 'u', 'l', 'l'] then some (.null, cs.drop 4)
    else if cs.take 4 = ['t', 'r', 'u', 'e'] then some (.bool true, cs.drop 4)
    else if cs.take 5 = ['f', 'a', 'l', 's', 'e'] then some (.bool false, cs.drop 5)
    else if cs.headD ' ' = '"' then
      (parseStringBody (cs.drop 1)).map fun p => (.str (String.mk p.1), p.2)
    else if cs.headD ' ' = '[' then
      let r1 := skipWs (cs.drop 1)
      if r1.headD ' ' = ']' then some (.arr [], r1.drop 1)
      else (parseElems fuel r1).map fun p => (.arr p.1, p.2)
    else if cs.headD ' ' = '\x7b' then
      let r1 := skipWs (cs.drop 1)
      if r1.headD ' ' = '\x7d' then some (.obj [], r1.drop 1)
      else (parseFields fuel r1).map fun p => (.obj p.1, p.2)
    else parseNumber cs

/-- Parse the elements of a non-empty array after the opening bracket. -/
def parseElems : Nat → List Char → Option (List Json × List Char)
  | 0, _ => none
  | fuel + 1, cs =>
    match parseValue fuel cs with
    | none => none
    | some (x, rest) =>
      let r := skipWs rest
      if r.headD ' ' = ',' then (parseElems fuel (r.drop 1)).map fun p => (x :: p.1, p.2)
      else if r.headD ' ' = ']' then some ([x], r.drop 1)
      else none

/-- Parse the members of a non-empty object after the opening brace. -/
def parseFields : Nat → List Char → Option (List (String × Json) × List Char)
  | 0, _ => none
  | fuel + 1, cs =>
    let c0 := skipWs cs
    if c0.headD ' ' = '"' then
      match parseStringBody (c0.drop 1) with
      | none => none
      | some (k, rest1) =>
        let r1 := skipWs rest1
        if r1.headD ' ' = ':' then
          match parseValue fuel (r1.drop 1) with
          | none => none
          | some (v, rest3) =>
            let r3 := skipWs rest3
            if r3.headD ' ' = ',' then
              (parseFields fuel (r3.drop 1)).map fun p => ((String.mk k, v) :: p.1, p.2)
            else if r3.headD ' ' = '\x7d' then some ([(String.mk k, v)], r3.drop 1)
            else none
        else none
    else none

end

/-- `JSON.parse`: parse one value and require only whitespace after it. -/
def jsonParse (s : String) : Option Json :=
  match parseValue (s.length + 1) s.data with
  | some (x, rest) => if skipWs rest = [] then some x else none
  | none => none

mutual

/-- Fuel sufficient for `parseValue` on the serialization of a value. -/
def jfuel : Json → Nat
  | .arr xs => 1 + jfuelElems xs
  | .obj fs => 1 + jfuelFields fs
  | _ => 1

def jfuelElems : List Json → Nat
  | [] => 0
  | x :: xs => 1 + jfuel x + jfuelElems xs

def jfuelFields : List (String × Json) → Nat
  | [] => 0
  | (_, v) :: fs => 1 + jfuel v + jfuelFields fs

end

/-- Characters that may legitimately follow a serialized number. -/
def restOK (rest : List Char) : Bool :=
  decide (digitVal (rest.headD ' ') = none
    ∧ rest.headD ' ' ≠ '.' ∧ rest.headD ' ' ≠ 'e' ∧ rest.headD ' ' ≠ 'E')

end Soulbound


namespace Soulbound

/-! ## Base64 (model of Node `Buffer` base64 encode/decode) -/

def b64Char (n : Nat) : Char :=
  if n < 26 then Char.ofNat (65 + n)
  else if n < 52 then Char.ofNat (97 + (n - 26))
  else if n < 62 then Char.ofNat (48 + (n - 52))
  else if n = 62 then '+'
  else '/'

/-- Standard base64 with `=` padding, bytes taken three at a time. -/
def base64Chars : List Nat → List Char
  | [] => []
  | [b0] => [b64Char (b0 / 4), b64Char (b0 % 4 * 16), '=', '=']
  | [b0, b1] =>
    [b64Char (b0 / 4), b64Char (b0 % 4 * 16 + b1 / 16), b64Char (b1 % 16 * 4), '=']
  | b0 :: b1 :: b2 :: rest =>
    b64Char (b0 / 4) :: b64Char (b0 % 4 * 16 + b1 / 16)
      :: b64Char (b1 % 16 * 4 + b2 / 64) :: b64Char (b2 % 64) :: base64Chars rest

def b64Val (c : Char) : Option Nat :=
  if 'A' ≤ c ∧ c ≤ 'Z' then some (c.toNat - 65)
  else if 'a' ≤ c ∧ c ≤ 'z' then some (c.toNat - 71)
  else if '0' ≤ c ∧ c ≤ '9' then some (c.toNat - 48 + 52)
  else if c = '+' then some 62
  else if c = '/' then some 63
  else none

/-- Strict base64 decoding (exact inverse of `base64Chars`). -/
def base64Decode : List Char → Option (List Nat)
  | [] => some []
  | c0 :: c1 :: c2 :: c3 :: rest =>
    match b64Val c0, b64Val c1 with
    | some v0, some v1 =>
      if rest = [] ∧ c2 = '=' ∧ c3 = '=' then some [v0 * 4 + v1 / 16]
      else if rest = [] ∧ c3 = '=' then
        match b64Val c2 with
        | some v2 => some [v0 * 4 + v1 / 16, v1 % 16 * 16 + v2 / 4]
        | none => none
      else
        match b64Val c2, b64Val c3 with
        | some v2, some v3 =>
          (base64Decode rest).map fun tl =>
            (v0 * 4 + v1 / 16) :: (v1 % 16 * 16 + v2 / 4) :: (v2 % 4 * 64 + v3) :: tl
        | _, _ => none
    | _, _ => none
  | _ => none

/-! ## UTF-8 decoding (model of `Buffer.toString("utf-8")` on valid input;
invalid sequences are modelled as failure) -/

def utf8DecodeGo : Nat → List Nat → Option (List Char)
  | _, [] => some []
  | 0, _ :: _ => none
  | fuel + 1, b0 :: rest =>
    if b0 < 0x80 then (utf8DecodeGo fuel rest).map fun cs => Char.ofNat b0 :: cs
    else if b0 < 0xC2 then none
    else if b0 < 0xE0 then
      let b1 := rest.headD 0
      if 1 ≤ rest.length ∧ (0x80 ≤ b1 ∧ b1 < 0xC0) then
        (utf8DecodeGo fuel (rest.drop 1)).map fun cs =>
          Char.ofNat ((b0 - 0xC0) * 64 + (b1 - 0x80)) :: cs
      else none
    else if b0 < 0xF0 then
      let b1 := rest.headD 0
      let b2 := (rest.drop 1).headD 0
      if 2 ≤ rest.length ∧ (0x80 ≤ b1 ∧ b1 < 0xC0) ∧ (0x80 ≤ b2 ∧ b2 < 0xC0) then
        let n := (b0 - 0xE0) * 4096 + (b1 - 0x80) * 64 + (b2 - 0x80)
        if n < 0x800 ∨ (0xD800 ≤ n ∧ n < 0xE000) then none
        else (utf8DecodeGo fuel (rest.drop 2)).map fun cs => Char.ofNat n :: cs
      else none
    else if b0 < 0xF5 then
      let b1 := rest.headD 0
      let b2 := (rest.drop 1).headD 0
      let b3 := (rest.drop 2).headD 0
      if 3 ≤ rest.length ∧ (0x80 ≤ b1 ∧ b1 < 0xC0) ∧ (0x80 ≤ b2 ∧ b2 < 0xC0)
          ∧ (0x80 ≤ b3 ∧ b3 < 0xC0) then
        let n := (b0 - 0xF0) * 262144 + (b1 - 0x80) * 4096 + (b2 - 0x80) * 64 + (b3 - 0x80)
        if n < 0x10000 ∨ 0x110000 ≤ n then none
        else (utf8DecodeGo fuel (rest.drop 3)).map fun cs => Char.ofNat n :: cs
      else none
    else none

/-- Decode UTF-8 bytes to characters; the byte count bounds the number
of decoding steps. -/
def utf8Decode (l : List Nat) : Option (List Char) := utf8DecodeGo l.length l

/-! ## Registration encoding (`toBase64DataURI` in `registration-builder.mjs`) -/

/-- `JSON.stringify(registration)` then `Buffer.from(json).toString("base64")`
wrapped in a `data:application/json;base64,` URI. -/
def toBase64DataURI (registration : Json) : String :=
  "data:application/json;base64," ++ String.mk (base64Chars (utf8Bytes (jsonStringify registration)))

/-! ## Chain client (`chain-client.mjs`) -/

/-- Outcome of one `fetch` call: a rejection (network error or abort
from the 10 s timeout), or a response with its `ok` flag and the JSON
body (`none` when `res.json()` would reject). -/
inductive FetchOutcome
  | failure (msg : String)
  | response (ok : Bool) (body : Option Json)

/-- The network a call observes: what `fetch` would return per URL. -/
def Net := String → FetchOutcome

def dataPrefix : List Char := ['d', 'a', 't', 'a', ':']

def startsWithChars (p : List Char) (s : String) : Bool := s.data.take p.length = p

/-- Split at the first `;`, model of the regex step `[^;]*;`. -/
def splitSemi : List Char → Option (List Char × List Char)
  | [] => none
  | c :: cs =>
    if c = ';' then some ([], cs)
    else (splitSemi cs).map fun p => (c :: p.1, p.2)

/-- Split at the first `,`, model of the regex step `[^,]*,`. -/
def splitComma : List Char → Option (List Char × List Char)
  | [] => none
  | c :: cs =>
    if c = ',' then some ([], cs)
    else (splitComma cs).map fun p => (c :: p.1, p.2)

/-- Characters JS regex `.` does not match. -/
def isLineTerm (c : Char) : Bool :=
  c = Char.ofNat 10 ∨ c = Char.ofNat 13 ∨ c.toNat = 0x2028 ∨ c.toNat = 0x2029

/-- Model of `uri.match(/^data:[^;]*;base64,(.+)$/)`: the capture group,
when the regex matches. -/
def dataB64MatchChars (l : List Char) : Option (List Char) :=
  if l.take 5 = dataPrefix then
    match splitSemi (l.drop 5) with
    | some (_, afterSemi) =>
      if afterSemi.take 7 = ['b', 'a', 's', 'e', '6', '4', ','] then
        let payload := afterSemi.drop 7
        if payload ≠ [] ∧ payload.all (fun c => !(isLineTerm c)) then some payload else none
      else none
    | none => none
  else none

/-- Model of `uri.match(/^data:[^,]*,(.+)$/)`: the capture group, when
the regex matches. -/
def dataPlainMatchChars (l : List Char) : Option (List Char) :=
  if l.take 5 = dataPrefix then
    match splitComma (l.drop 5) with
    | some (_, afterComma) =>
      if afterComma ≠ [] ∧ afterComma.all (fun c => !(isLineTerm c)) then some afterComma
      else none
    | none => none
  else none

/-- Percent-decoding to bytes, model of the byte layer of
`decodeURIComponent` (a malformed `%` sequence throws). -/
def percentBytes : List Char → Option (List Nat)
  | [] => some []
  | '%' :: a :: b :: r =>
    match hexVal a, hexVal b with
    | some va, some vb => (percentBytes r).map fun tl => (va * 16 + vb) :: tl
    | _, _ => none
  | '%' :: _ => none
  | c :: r => (percentBytes r).map fun tl => utf8EncodeChar c ++ tl

def ipfsPrefix : List Char := ['i', 'p', 'f', 's', ':', '/', '/']

/-- `ipfs://` URIs are rewritten to the ipfs.io gateway. -/
def resolveUrl (uri : String) : String :=
  if startsWithChars ipfsPrefix uri then "https://ipfs.io/ipfs/" ++ (uri.drop 7) else uri

/-- The body of `fetchRegistrationFile` inside its try block; every
JS throw site is an `Except.error`. -/
def fetchBody (net : Net) (uri : String) : Except String (Option Json) :=
  if startsWithChars dataPrefix uri then
    match dataB64MatchChars uri.data with
    | some payload =>
      match (base64Decode payload).bind utf8Decode with
      | some chars =>
        match jsonParse (String.mk chars) with
        | some j => .ok (some j)
        | none => .error "SyntaxError: JSON.parse"
      | none => .error "SyntaxError: JSON.parse"
    | none =>
      match dataPlainMatchChars uri.data with
      | some payload =>
        match percentBytes payload with
        | none => .error "URIError: decodeURIComponent"
        | some bytes =>
          match utf8Decode bytes with
          | none => .error "URIError: decodeURIComponent"
          | some chars =>
            match jsonParse (String.mk chars) with
            | some j => .ok (some j)
            | none => .error "SyntaxError: JSON.parse"
      | none => .ok none
  else
    match net (resolveUrl uri) with
    | .failure e => .error e
    | .response ok body =>
      if ok then
        match body with
        | some j => .ok (some j)
        | none => .error "FetchError: body is not json"
      else .ok none

/-- `fetchRegistrationFile`: falsy URI short-circuits to null; the try
block's body; every thrown error is caught and becomes null. -/
def fetchRegistrationFile (net : Net) (uri : String) : Option Json :=
  if uri = "" then none
  else
    match fetchBody net uri with
    | .ok v => v
    | .error _ => none

/-- The chain state one `lookupAgent` call observes. -/
structure ChainReads where
  ownerOf : Nat → Except String String
  tokenURI : Nat → Except String String
  getAgentWallet : Nat → Except String String
  net : Net

structure ChainAgent where
  agentId : Nat
  owner : String
  tokenURI : String
  agentWallet : Option String
  registration : Option Json

/-- `lookupAgent`: owner and tokenURI reads jointly awaited (a failure of
either propagates), the wallet read best-effort, then the tokenURI is
resolved through `fetchRegistrationFile`. -/
def lookupAgent (cr : ChainReads) (agentId : Nat) : Except String ChainAgent :=
  match cr.ownerOf agentId, cr.tokenURI agentId with
  | .ok owner, .ok uri =>
    let wallet := match cr.getAgentWallet agentId with
      | .ok w => some w
      | .error _ => none
    .ok ⟨agentId, owner, uri, wallet, fetchRegistrationFile cr.net uri⟩
  | .error e, _ => .error e
  | .ok _, .error e => .error e

/-- A network where every fetch rejects (e.g. the 10 s abort). -/
def netFailEx : Net := fun _ => .failure "timeout"

/-- A network where every fetch resolves with `ok = false`. -/
def netNotOkEx : Net := fun _ => .response false none

/-- A network where every fetch resolves ok but the body is not JSON. -/
def netNoBodyEx : Net := fun _ => .response true none

/-- Chain reads for the C6 witness: token URI resolves, its registration
fetch times out. -/
def crC6 : ChainReads :=
  ⟨fun _ => .ok "0xowner", fun _ => .ok "https://example.com/reg.json",
   fun _ => .error "getAgentWallet reverted", netFailEx⟩

/-- The agent `lookupAgent crC6 1` returns: wallet and registration null. -/
def agentC6 : ChainAgent :=
  ⟨1, "0xowner", "https://example.com/reg.json", none, none⟩

/-! ## JS value helpers shared by the CLI workflows -/

/-- JS truthiness of a JSON value: `null`, `false`, `0` and `""` are
falsy, every array and object is truthy. -/
def jsTruthy : Json → Bool
  | .null => false
  | .bool b => b
  | .num n => decide (n ≠ 0)
  | .str s => decide (s ≠ "")
  | .arr _ => true
  | .obj _ => true

/-- JS property access `v[k]` on a JSON value (`none` is `undefined`);
on an object the last binding of a duplicated key wins, as after
`JSON.parse`. -/
def jsGet (j : Json) (k : String) : Option Json :=
  match j with
  | .obj fields => fields.reverse.lookup k
  | _ => none

/-- JS truthiness of `undefined` versus a JSON value. -/
def jsTruthyOpt : Option Json → Bool
  | some v => jsTruthy v
  | none => false

/-- JS truthiness of an optional numeric field such as `config.agentId`:
absent, `null` and the number `0` are falsy. -/
def jsNumTruthy : Option Nat → Bool
  | some n => decide (n ≠ 0)
  | none => false

/-- JS strict equality `localHash === chainValue` between a local hash
(a string or `null`) and a JSON value read from the chain (`none` is
`undefined`, for an absent key): true only for two identical strings or
two `null`s. -/
def strictEqJs (localHash : Option String) (v : Option Json) : Bool :=
  match localHash, v with
  | some s, some (.str t) => decide (s = t)
  | none, some .null => true
  | _, _ => false

end Soulbound


namespace Soulbound

/-! ## Registration builder (`registration-builder.mjs`) -/

/-- The agent configuration consumed by `buildRegistration` and the two
CLI workflows.  A `none` in an optional field models an absent or
`undefined` property, so the destructuring default applies.  The
workspace path and the filesystem it denotes are modelled together as a
`Workspace` (`none` models a falsy `workspacePath`).  Agent ids are the
natural numbers JSON configs and `parseInt` produce here; `some 0` is
the falsy number `0`. -/
structure Config where
  name : Json
  description : Json
  image : Option Json
  workspacePath : Option Workspace
  ownerAddress : Json
  agentId : Option Nat
  chainId : Option String
  identityRegistry : Option String
  services : Option (List Json)
  supportedTrust : Option (List Json)
  soulbound : Option Json

/-- JS `entry?.hash || null`: the hash string when truthy, else `null`. -/
def jsHashOrNull : Option String → Json
  | some s => if s = "" then .null else .str s
  | none => .null

/-- The `identityFiles` block of the registration object: each
document's hash or `null`, the composite hash, the `_algorithm` tag and
the `_hashDate` timestamp. -/
def identityFilesJson (h : HashResults) (now : String) : Json :=
  .obj [("SOUL.md", jsHashOrNull (h.files .soulMd).hash),
        ("USER.md", jsHashOrNull (h.files .userMd).hash),
        ("IDENTITY.md", jsHashOrNull (h.files .identityMd).hash),
        ("_composite", jsHashOrNull (some h.composite.hash)),
        ("_algorithm", .str "keccak256"),
        ("_hashDate", .str now)]

/-- The registration object literal of `buildRegistration`, given the
hash results (`none` when `workspacePath` was falsy) and the current
time `new Date().toISOString()` (its two calls are modelled by the one
instant `now`). -/
def regJson (c : Config) (hashes : Option HashResults) (now : String) : Json :=
  .obj [("type", .str "https://eips.ethereum.org/EIPS/eip-8004#registration-v1"),
        ("name", c.name),
        ("description", c.description),
        ("image", c.image.getD (.str "")),
        ("services", .arr (c.services.getD [])),
        ("x402Support", .bool true),
        ("active", .bool true),
        ("registrations",
          if jsNumTruthy c.agentId then
            .arr [.obj [("agentId", .num (Int.ofNat (c.agentId.getD 0))),
                        ("agentRegistry",
                          .str ("eip155:" ++ c.chainId.getD "8453" ++ ":"
                            ++ c.identityRegistry.getD
                              "0x8004A169FB4a3325136EB29fA0ceB6D2e539a432"))]]
          else .arr []),
        ("supportedTrust", .arr (c.supportedTrust.getD [.str "reputation"])),
        ("soulbound", c.soulbound.getD
          (.obj [("locked", .bool true), ("standard", .str "ERC-5192")])),
        ("identityFiles", match hashes with
          | some h => identityFilesJson h now
          | none => .null),
        ("owner", .obj [("address", c.ownerAddress),
                        ("chain", .str ("eip155:" ++ c.chainId.getD "8453"))]),
        ("_generatedAt", .str now),
        ("_generator", .str "soulbound-identity/registration-builder v1.0.0")]

/-- `buildRegistration`: hash the workspace when `workspacePath` is
truthy (a non-ENOENT read error propagates), then assemble the
registration object. -/
def buildRegistration (c : Config) (now : String) : Except String Json :=
  match c.workspacePath with
  | none => .ok (regJson c none now)
  | some ws =>
    match hashIdentityFiles ws with
    | .error e => .error e
    | .ok h => .ok (regJson c (some h) now)

end Soulbound


namespace Soulbound

/-! ## Update workflow (`update-identity.mjs`) -/

/-- The unsigned transaction the update workflow builds: `register` for
an unregistered agent, `setAgentURI` otherwise. -/
inductive Tx
  | registerTx (agentURI : String)
  | updateURITx (agentId : Nat) (newURI : String)
  deriving DecidableEq

/-- One entry of the `changes` list: the document, the on-chain value
(or the string "(not set)" when falsy) and the local hash (or the
string "(missing)" when falsy). -/
structure Change where
  file : IdFile
  fromJ : Json
  toJ : Json

/-- JS `localHash !== chainHash` between the local hash and the
on-chain JSON value of one document. -/
def hashNeq (localHash : Option String) (chainHash : Option Json) : Bool :=
  !(strictEqJs localHash chainHash)

/-- The `changes` entry recorded for one differing document. -/
def changeOf (newHashes : HashResults) (onChain : Json) (f : IdFile) : Change :=
  ⟨f,
   match jsGet onChain f.fileName with
   | some v => if jsTruthy v then v else .str "(not set)"
   | none => .str "(not set)",
   match (newHashes.files f).hash with
   | some s => if s = "" then .str "(missing)" else .str s
   | none => .str "(missing)"⟩

/-- The diff the update workflow computes against the on-chain
`identityFiles` block: one change per document whose local hash is
strictly unequal to the on-chain value.  Only the three documents are
compared; the `_composite` entry is never consulted. -/
def diffChanges (newHashes : HashResults) (onChain : Json) : List Change :=
  (IDENTITY_FILES.filter fun f =>
      hashNeq (newHashes.files f).hash (jsGet onChain f.fileName)).map
    (changeOf newHashes onChain)

/-- The `changes` list recorded when the current registration carries no
identity hashes ("first time setting them"): every document, from
"(not set)" to its local hash. -/
def firstTimeChanges (newHashes : HashResults) : List Change :=
  IDENTITY_FILES.map fun f =>
    ⟨f, .str "(not set)",
     match (newHashes.files f).hash with
     | some s => if s = "" then .str "(missing)" else .str s
     | none => .str "(missing)"⟩

/-- How one run of the update workflow's main ends: the explicit
all-hashes-match no-op (`process.exit(0)` before any build), a built
unsigned transaction with the recorded changes, or an error reaching
the outer catch. -/
inductive UpdateResult
  | noop
  | txBuilt (tx : Tx) (changes : List Change)
  | errored (msg : String)

/-- Step 2 of the update workflow: the resulting `changes` list, or
`none` for the early no-op exit.  A falsy `config.agentId` skips the
chain entirely (`changes` stays empty); a chain read failure is caught
and the update proceeds with `changes` untouched; a registration
without a truthy `identityFiles` block yields the first-time list; and
otherwise the three documents are diffed, an empty diff exiting 0. -/
def updateStep2 (c : Config) (cr : ChainReads) (newHashes : HashResults) :
    Option (List Change) :=
  if jsNumTruthy c.agentId then
    match lookupAgent cr (c.agentId.getD 0) with
    | .error _ => some []
    | .ok agent =>
      match agent.registration with
      | some reg =>
        match jsGet reg "identityFiles" with
        | some ifs =>
          if jsTruthy ifs then
            if (diffChanges newHashes ifs).length = 0 then none
            else some (diffChanges newHashes ifs)
          else some (firstTimeChanges newHashes)
        | none => some (firstTimeChanges newHashes)
      | none => some (firstTimeChanges newHashes)
  else some []

/-- The update workflow's `main` up to the built transaction: hash the
workspace (a failure — including a falsy `workspacePath` — rejects into
the outer catch), run the on-chain diff, stop on the early no-op,
otherwise rebuild the registration and build `setAgentURI` for a truthy
`config.agentId` or `register` for a falsy one. -/
def updateMain (c : Config) (cr : ChainReads) (now : String) : UpdateResult :=
  match c.workspacePath with
  | none => .errored "TypeError: workspacePath must be a string"
  | some ws =>
    match hashIdentityFiles ws with
    | .error e => .errored e
    | .ok newHashes =>
      match updateStep2 c cr newHashes with
      | none => .noop
      | some changes =>
        match buildRegistration c now with
        | .error e => .errored e
        | .ok reg =>
          if jsNumTruthy c.agentId then
            .txBuilt (.updateURITx (c.agentId.getD 0) (toBase64DataURI reg)) changes
          else
            .txBuilt (.registerTx (toBase64DataURI reg)) changes

end Soulbound


namespace Soulbound

/-! ## Verify CLI (`verify-identity.mjs`) -/

/-- The verdict for one file against a JSON expected value, as computed
by `verifyIdentityFiles` when its expected hashes come from a parsed
JSON document (the on-chain `identityFiles` block or the offline
file). -/
def verdictOfJ (loc : FileEntry) (expected : Option Json) : FileVerdict :=
  if loc.fileExists = false then .MISSING
  else if jsTruthyOpt expected = false then .NO_CHAIN_HASH
  else if strictEqJs loc.hash expected then .VERIFIED
  else .MISMATCH

/-- `verifyIdentityFiles` on freshly computed local hashes against a
JSON expected-hash document: per-file verdicts, then the composite
check when `expectedHashes._composite` is truthy. -/
def mkVerifyResultJ (lh : HashResults) (exp : Json) : VerifyResult :=
  let verdicts : IdFile → FileVerdict := fun f => verdictOfJ (lh.files f) (jsGet exp f.fileName)
  let v0 := IDENTITY_FILES.foldl (fun v f => if verdictFails (verdicts f) then false else v) true
  if jsTruthyOpt (jsGet exp "_composite") then
    if strictEqJs (some lh.composite.hash) (jsGet exp "_composite") then
      ⟨v0, verdicts, some .VERIFIED⟩
    else ⟨false, verdicts, some .MISMATCH⟩
  else ⟨v0, verdicts, none⟩

/-- `verifyIdentityFiles` with a JSON expected-hash document: recompute
the local hashes, then compare. -/
def verifyIdentityFilesJ (ws : Workspace) (exp : Json) : Except String VerifyResult :=
  (hashIdentityFiles ws).map fun lh => mkVerifyResultJ lh exp

/-- The verify CLI's options after `parseArgs`.  `configLoad` is the
outcome of reading and parsing the `--config` file, reduced to the two
fields the script consults (`workspacePath`, `agentId`); `expectedRead`
likewise for the `--expected-hashes` file, consulted only when
`expectedPath` says the flag was given. -/
structure VOpts where
  workspace : Option Workspace
  agentId : Option Nat
  configLoad : Option (Except String (Option Workspace × Option Nat))
  offline : Bool
  expectedPath : Bool
  expectedRead : Except String Json

/-- The config-merge step: `opts.workspace || config.workspacePath` and
`opts.agentId || config.agentId` when a `--config` file was given (its
read or parse failure rejects into the outer catch). -/
def mergeOpts (o : VOpts) : Except String (Option Workspace × Option Nat) :=
  match o.configLoad with
  | none => .ok (o.workspace, o.agentId)
  | some (.error e) => .error e
  | some (.ok (cws, cid)) =>
    .ok ((match o.workspace with | some w => some w | none => cws),
         (if jsNumTruthy o.agentId then o.agentId else cid))

/-- The verify CLI's `main` as its exit code: 3 for a config load
failure, a falsy workspace, a local hashing failure, a chain read
failure or a failing expected-hashes read (all reaching `exit(3)`
directly or through the outer catch); 2 when no registration or no
truthy `identityFiles` block is found, or when neither an offline hash
file nor a truthy agent id was supplied; else 0 or 1 by the verification
verdict. -/
def verifyMain (o : VOpts) (cr : ChainReads) : Nat :=
  match mergeOpts o with
  | .error _ => 3
  | .ok (none, _) => 3
  | .ok (some ws, agentId) =>
    match hashIdentityFiles ws with
    | .error _ => 3
    | .ok _ =>
      if o.offline && o.expectedPath then
        match o.expectedRead with
        | .error _ => 3
        | .ok j =>
          match verifyIdentityFilesJ ws j with
          | .error _ => 3
          | .ok r => if r.verified then 0 else 1
      else if jsNumTruthy agentId then
        match lookupAgent cr (agentId.getD 0) with
        | .error _ => 3
        | .ok agent =>
          match agent.registration with
          | none => 2
          | some reg =>
            match jsGet reg "identityFiles" with
            | some ifs =>
              if jsTruthy ifs then
                match verifyIdentityFilesJ ws ifs with
                | .error _ => 3
                | .ok r => if r.verified then 0 else 1
              else 2
            | none => 2
      else 2

end Soulbound


namespace Soulbound

/-! ## Concrete fixtures for the CLI workflows -/

/-- An on-chain `identityFiles` block whose three document hashes match
`wsABC` but whose `_composite` deliberately differs (the all-zero
digest). -/
def ifsC9 : Json :=
  .obj [("SOUL.md", .str (keccak256 [97])),
        ("USER.md", .str (keccak256 [98])),
        ("IDENTITY.md", .str (keccak256 [99])),
        ("_composite", .str zeroHash),
        ("_algorithm", .str "keccak256"),
        ("_hashDate", .str "2026-01-01T00:00:00.000Z")]

def regC9 : Json := .obj [("identityFiles", ifsC9)]

/-- Chain reads serving `regC9` as the registration of every agent. -/
def crC9 : ChainReads :=
  ⟨fun _ => .ok "0xowner", fun _ => .ok "https://registry.example/reg.json",
   fun _ => .error "getAgentWallet reverted", fun _ => .response true (some regC9)⟩

def configC9 : Config :=
  ⟨.str "Bernardo", .str "agent", none, some wsABC, .str "0xOWNER",
   some 7, none, none, none, none, none⟩

def agentC9 : ChainAgent :=
  ⟨7, "0xowner", "https://registry.example/reg.json", none, some regC9⟩

/-- The C10 configuration: the same agent but with `agentId` the falsy
number `0`. -/
def configC10 : Config :=
  ⟨.str "Bernardo", .str "agent", none, some wsABC, .str "0xOWNER",
   some 0, none, none, none, none, none⟩

def regC10 : Json := (buildRegistration configC10 "t").toOption.getD .null

/-- The offline expected-hash document matching `wsABC` exactly. -/
def expJsonC8 : Json :=
  .obj [("SOUL.md", .str (keccak256 [97])),
        ("USER.md", .str (keccak256 [98])),
        ("IDENTITY.md", .str (keccak256 [99])),
        ("_composite", .str lhABC.composite.hash)]

/-- Offline verify options: workspace `wsABC`, expected hashes from
`expJsonC8`. -/
def oC8 : VOpts := ⟨some wsABC, none, none, true, true, .ok expJsonC8⟩

def rC8 : VerifyResult :=
  (verifyIdentityFilesJ wsABC expJsonC8).toOption.getD dummyVerifyResult

end Soulbound


namespace Soulbound

/-! ## Basic lemmas -/

theorem keccak256_ne_empty (data : List Nat) : keccak256 data ≠ "" := by
  intro h
  have hd := congrArg String.data h
  rw [keccak256] at hd
  simp [String.data_append] at hd

theorem join3 (a b c : String) : String.join [a, b, c] = a ++ b ++ c := rfl

theorem jsOrZeroHash_keccak (b : List Nat) :
    jsOrZeroHash (some (keccak256 b)) = keccak256 b := by
  simp [jsOrZeroHash, keccak256_ne_empty b]

/-- Characterisation of a successful `hashIdentityFiles` call. -/
theorem hashIdentityFiles_ok (ws : Workspace) (lh : HashResults)
    (h : hashIdentityFiles ws = .ok lh) :
    (∀ f, lh.files f = entryOf ws f)
    ∧ lh.composite.hash = keccak256 (utf8Bytes
        (jsOrZeroHash (entryOf ws .soulMd).hash ++ jsOrZeroHash (entryOf ws .userMd).hash
          ++ jsOrZeroHash (entryOf ws .identityMd).hash))
    ∧ lh.composite.files = ["SOUL.md", "USER.md", "IDENTITY.md"] := by
  cases hs : ws.read .soulMd <;> cases hu : ws.read .userMd <;> cases hi : ws.read .identityMd <;>
    simp [hashIdentityFiles, readEntry, hs, hu, hi, mkHashResults, IDENTITY_FILES,
      IdFile.fileName, String.join] at h <;>
    subst h <;>
    refine ⟨fun f => by cases f <;> simp [entryOf, hs, hu, hi, IdFile.fileName], ?_, rfl⟩ <;>
    simp [entryOf, hs, hu, hi]

end Soulbound

namespace Soulbound

set_option maxRecDepth 2000000
set_option maxHeartbeats 2000000

theorem jsOrZeroHash_entryOf (ws : Workspace) (f : IdFile) :
    jsOrZeroHash (entryOf ws f).hash = specDocHash ws f := by
  cases h : ws.read f <;> simp [entryOf, specDocHash, h, jsOrZeroHash, keccak256_ne_empty]

/-- C2: for every workspace state the composite hash produced by
`hashIdentityFiles` equals `Hash(concat(h_1, h_2, h_3))` where `h_i` ranges
over SOUL.md, USER.md, IDENTITY.md in that fixed order and is the
document's real hash string when the document exists and the all-zero
placeholder digest when it is missing; moreover the composite is
order-sensitive and changes when a document's content changes or when its
presence changes (shown at concrete workspaces). -/
theorem hashIdentityFiles_composite_spec :
    (∀ ws lh, hashIdentityFiles ws = .ok lh → lh.composite.hash = specComposite ws)
    ∧ specComposite wsAB ≠ specComposite wsBA
    ∧ specComposite wsSoulA ≠ specComposite wsSoulB
    ∧ specComposite wsSoulEmpty ≠ specComposite wsNone := by
  refine ⟨fun ws lh h => ?_, by decide, by decide, by decide⟩
  rw [(hashIdentityFiles_ok ws lh h).2.1, specComposite]
  simp only [jsOrZeroHash_entryOf]

/-- C2 witness: the universally quantified part of
`hashIdentityFiles_composite_spec` evaluated at the concrete workspace
`wsAB`. -/
theorem hashIdentityFiles_composite_spec_witness :
    lhAB.composite.hash = specComposite wsAB :=
  hashIdentityFiles_composite_spec.1 wsAB lhAB (by rfl)

end Soulbound

namespace Soulbound

set_option maxRecDepth 2000000
set_option maxHeartbeats 2000000

/-- C7: `hashIdentityFiles` distinguishes absence from other read
failures.  On a successful call an ENOENT document is recorded with
`exists = false` and `hash = null` and the operation continues (an
existing document is recorded with its real hash and size); a read that
fails for any other reason makes the whole call fail, and the error it
fails with is one of the files' I/O errors. -/
theorem hashIdentityFiles_error_handling :
    (∀ ws lh, hashIdentityFiles ws = .ok lh → ∀ f,
      (ws.read f = .enoent → lh.files f = ⟨none, 0, false, joinPath ws.root f.fileName⟩)
      ∧ ∀ b, ws.read f = .content b →
          lh.files f = ⟨some (keccak256 b), b.length, true, joinPath ws.root f.fileName⟩)
    ∧ (∀ ws e, hashIdentityFiles ws = .error e → ∃ f, ws.read f = .ioError e)
    ∧ ∀ ws f e, ws.read f = .ioError e → ∃ e2, hashIdentityFiles ws = .error e2 := by
  refine ⟨fun ws lh h f => ?_, fun ws e h => ?_, fun ws f e h => ?_⟩
  · have hf := (hashIdentityFiles_ok ws lh h).1 f
    exact ⟨fun hr => by simp [hf, entryOf, hr], fun b hr => by simp [hf, entryOf, hr]⟩
  · cases hs : ws.read .soulMd <;> cases hu : ws.read .userMd <;> cases hi : ws.read .identityMd <;>
      simp [hashIdentityFiles, readEntry, hs, hu, hi] at h <;>
      subst h <;>
      first
      | exact ⟨.soulMd, hs⟩
      | exact ⟨.userMd, hu⟩
      | exact ⟨.identityMd, hi⟩
  · cases hs : ws.read .soulMd <;> cases hu : ws.read .userMd <;> cases hi : ws.read .identityMd <;>
      cases f <;> simp_all [hashIdentityFiles, readEntry]

/-- C7 witness: on `wsAB` the present SOUL.md is recorded with its real
hash and the whole call succeeds; on `wsPerm`, whose USER.md read fails
with EACCES, the whole call fails. -/
theorem hashIdentityFiles_error_handling_witness :
    lhAB.files .soulMd = ⟨some (keccak256 [97]), 1, true, joinPath wsAB.root IdFile.soulMd.fileName⟩
    ∧ ∃ e2, hashIdentityFiles wsPerm = .error e2 :=
  ⟨(hashIdentityFiles_error_handling.1 wsAB lhAB (by rfl) .soulMd).2 [97] (by rfl),
   hashIdentityFiles_error_handling.2.2 wsPerm .userMd "EACCES" (by rfl)⟩

end Soulbound

namespace Soulbound

set_option maxRecDepth 2000000
set_option maxHeartbeats 2000000

theorem verifyIdentityFiles_ok (ws : Workspace) (exp : ExpectedHashes)
    (r : VerifyResult) (h : verifyIdentityFiles ws exp = .ok r) :
    ∃ lh, hashIdentityFiles ws = .ok lh ∧ r = mkVerifyResult lh exp := by
  unfold verifyIdentityFiles at h
  cases hlh : hashIdentityFiles ws with
  | error e => rw [hlh] at h; simp [Except.map] at h
  | ok lh => rw [hlh] at h; simp [Except.map] at h; exact ⟨lh, rfl, h.symm⟩

theorem mkVerifyResult_files (lh : HashResults) (exp : ExpectedHashes) (f : IdFile) :
    (mkVerifyResult lh exp).files f = verdictOf (lh.files f) (exp.file f) := by
  unfold mkVerifyResult
  split_ifs <;> rfl

theorem v0_iff (vd : IdFile → FileVerdict) :
    (IDENTITY_FILES.foldl (fun v f => if verdictFails (vd f) then false else v) true) = true
      ↔ ∀ f, vd f = .VERIFIED ∨ vd f = .NO_CHAIN_HASH := by
  have hfa : (∀ f, vd f = .VERIFIED ∨ vd f = .NO_CHAIN_HASH) ↔
      ((vd .soulMd = .VERIFIED ∨ vd .soulMd = .NO_CHAIN_HASH)
        ∧ (vd .userMd = .VERIFIED ∨ vd .userMd = .NO_CHAIN_HASH)
        ∧ (vd .identityMd = .VERIFIED ∨ vd .identityMd = .NO_CHAIN_HASH)) := by
    constructor
    · intro h; exact ⟨h _, h _, h _⟩
    · rintro ⟨h1, h2, h3⟩ f; cases f <;> assumption
  rw [hfa]
  simp only [IDENTITY_FILES, List.foldl_cons, List.foldl_nil]
  cases hs : vd .soulMd <;> cases hu : vd .userMd <;> cases hi : vd .identityMd <;>
    simp [verdictFails, hs, hu, hi]

theorem mkVerifyResult_verified_iff (lh : HashResults) (exp : ExpectedHashes) :
    (mkVerifyResult lh exp).verified = true ↔
      ((∀ f, (mkVerifyResult lh exp).files f = .VERIFIED
          ∨ (mkVerifyResult lh exp).files f = .NO_CHAIN_HASH)
        ∧ (strTruthy exp.composite = true → (mkVerifyResult lh exp).composite = some .VERIFIED)) := by
  have hv := v0_iff (fun f => verdictOf (lh.files f) (exp.file f))
  simp only [mkVerifyResult_files]
  cases hc : strTruthy exp.composite with
  | false =>
    simp only [mkVerifyResult, hc, Bool.false_eq_true, if_false]
    rw [hv]
    simp
  | true =>
    by_cases h2 : some lh.composite.hash = exp.composite
    · simp only [mkVerifyResult, hc, if_true, h2, if_pos]
      rw [hv]
      simp
    · simp only [mkVerifyResult, hc, if_true, h2, if_false]
      simp

end Soulbound

namespace Soulbound

set_option maxRecDepth 2000000
set_option maxHeartbeats 2000000

/-- C3: `verifyIdentityFiles` classifies each document as MISSING when it
is absent locally (regardless of any expected hash), NO_CHAIN_HASH when
it exists locally but no expected hash is recorded (truthy), VERIFIED
when the local hash equals the expected hash, MISMATCH when both are
present and unequal; and the overall result is verified exactly when
every per-document verdict is VERIFIED or NO_CHAIN_HASH and the
composite, when an expected composite is supplied, is VERIFIED. -/
theorem verifyIdentityFiles_classification (ws : Workspace) (exp : ExpectedHashes)
    (r : VerifyResult) (h : verifyIdentityFiles ws exp = .ok r) :
    (∀ f, ws.read f = .enoent → r.files f = .MISSING)
    ∧ (∀ f b, ws.read f = .content b → strTruthy (exp.file f) = false →
        r.files f = .NO_CHAIN_HASH)
    ∧ (∀ f b, ws.read f = .content b → strTruthy (exp.file f) = true →
        r.files f = if some (keccak256 b) = exp.file f then .VERIFIED else .MISMATCH)
    ∧ (r.verified = true ↔
        ((∀ f, r.files f = .VERIFIED ∨ r.files f = .NO_CHAIN_HASH)
          ∧ (strTruthy exp.composite = true → r.composite = some .VERIFIED))) := by
  obtain ⟨lh, hlh, hr⟩ := verifyIdentityFiles_ok ws exp r h
  have hfe := (hashIdentityFiles_ok ws lh hlh).1
  subst hr
  refine ⟨fun f hf => ?_, fun f b hf ht => ?_, fun f b hf ht => ?_,
    mkVerifyResult_verified_iff lh exp⟩
  · rw [mkVerifyResult_files, hfe f]
    simp [entryOf, hf, verdictOf]
  · rw [mkVerifyResult_files, hfe f]
    simp [entryOf, hf, verdictOf, ht]
  · rw [mkVerifyResult_files, hfe f]
    simp only [entryOf, hf, verdictOf, ht]
    norm_num

/-- C3 witness: concrete classifications on `wsAB` (SOUL.md present with
no recorded hash, USER.md present and matching, IDENTITY.md absent). -/
theorem verifyIdentityFiles_classification_witness :
    rC3.files .identityMd = .MISSING
    ∧ rC3.files .soulMd = .NO_CHAIN_HASH
    ∧ rC3.files .userMd
        = (if some (keccak256 [98]) = expC3.file .userMd then .VERIFIED else .MISMATCH) :=
  ⟨(verifyIdentityFiles_classification wsAB expC3 rC3 (by rfl)).1 .identityMd (by rfl),
   (verifyIdentityFiles_classification wsAB expC3 rC3 (by rfl)).2.1 .soulMd [97] (by rfl) (by rfl),
   (verifyIdentityFiles_classification wsAB expC3 rC3 (by rfl)).2.2.1 .userMd [98] (by rfl)
     (by decide)⟩

end Soulbound

namespace Soulbound

set_option maxRecDepth 2000000
set_option maxHeartbeats 2000000

/-- C4 counterexample: on a workspace where all three documents are
missing, verifying against the freshly computed snapshot of that same
workspace yields verified = false (each absent document is classified
MISSING), refuting the claim for workspace states with missing
documents. -/
theorem verify_self_snapshot_missing_cex :
    ((hashIdentityFiles wsNone).bind
      (fun lh => verifyIdentityFiles wsNone (selfExpected lh))).map (fun r => r.verified)
      = .ok false := by rfl

/-- C4 (amended): for every workspace state in which all three documents
exist, verifying the workspace against its own freshly computed snapshot
(expected hashes exactly the per-document hashes and composite that
`hashIdentityFiles` just produced) yields verified = true. -/
theorem verify_self_snapshot (ws : Workspace) (lh : HashResults)
    (hok : hashIdentityFiles ws = .ok lh)
    (hex : ∀ f, (lh.files f).fileExists = true) :
    (verifyIdentityFiles ws (selfExpected lh)).map (fun r => r.verified) = .ok true := by
  have hfe := (hashIdentityFiles_ok ws lh hok).1
  have hch := (hashIdentityFiles_ok ws lh hok).2.1
  have hct : strTruthy (some lh.composite.hash) = true := by
    rw [hch]; simp [strTruthy, keccak256_ne_empty]
  unfold verifyIdentityFiles
  rw [hok]
  simp only [Except.map, Except.ok.injEq]
  rw [mkVerifyResult_verified_iff]
  refine ⟨fun f => ?_, fun _ => ?_⟩
  · rw [mkVerifyResult_files]
    have hx := hex f
    rw [hfe f] at hx
    cases hr : ws.read f with
    | content b =>
      left
      simp [entryOf, hr, verdictOf, strTruthy, keccak256_ne_empty, selfExpected, hfe f]
    | enoent => simp [entryOf, hr] at hx
    | ioError e => simp [entryOf, hr] at hx
  · show (mkVerifyResult lh (selfExpected lh)).composite = some .VERIFIED
    simp [mkVerifyResult, selfExpected, hct]

/-- C4 witness: the amended theorem evaluated on the concrete all-present
workspace `wsABC`. -/
theorem verify_self_snapshot_witness :
    (verifyIdentityFiles wsABC (selfExpected lhABC)).map (fun r => r.verified) = .ok true :=
  verify_self_snapshot wsABC lhABC (by rfl) (by intro f; cases f <;> rfl)

end Soulbound

namespace Soulbound

set_option maxRecDepth 2000000
set_option maxHeartbeats 2000000

theorem char_ofNat_toNat (c : Char) : Char.ofNat c.toNat = c := by
  have h : c.toNat.isValidChar := c.valid
  rw [Char.ofNat, dif_pos h]
  rfl

theorem hexVal_hexDigitChar (d : Nat) (h : d < 16) : hexVal (hexDigitChar d) = some d := by
  interval_cases d <;> rfl

theorem digitVal_digitChar (d : Nat) (h : d < 10) :
    digitVal (Char.ofNat (48 + d)) = some d := by
  interval_cases d <;> rfl

theorem skipWs_cons (c : Char) (l : List Char) (h : isWsChar c = false) :
    skipWs (c :: l) = c :: l := by
  simp [skipWs, h]

theorem parseUnicode_plain (n : Nat) (r : List Char)
    (h1 : ¬(0xD800 ≤ n ∧ n < 0xDC00)) (h2 : ¬(0xDC00 ≤ n ∧ n < 0xE000)) :
    parseUnicode n r = (parseStringBody r).map fun p => (Char.ofNat n :: p.1, p.2) := by
  rw [parseUnicode.eq_def, if_neg h1, if_neg h2]

theorem parseStringBody_escape (cs rest : List Char) :
    parseStringBody (escapeList cs ++ ('"' :: rest)) = some (cs, rest) := by
  induction cs with
  | nil => simp +decide [escapeList, parseStringBody]
  | cons c cs ih =>
    by_cases h1 : c = '"'
    · subst h1; simp +decide [escapeList, escapeChar, parseStringBody, parseEscape, ih]
    · by_cases h2 : c = '\\'
      · subst h2; simp +decide [escapeList, escapeChar, parseStringBody, parseEscape, ih]
      · by_cases h3 : c = Char.ofNat 8
        · subst h3; simp +decide [escapeList, escapeChar, parseStringBody, parseEscape, ih]
        · by_cases h4 : c = Char.ofNat 9
          · subst h4; simp +decide [escapeList, escapeChar, parseStringBody, parseEscape, ih]
          · by_cases h5 : c = Char.ofNat 10
            · subst h5; simp +decide [escapeList, escapeChar, parseStringBody, parseEscape, ih]
            · by_cases h6 : c = Char.ofNat 12
              · subst h6
                simp +decide [escapeList, escapeChar, parseStringBody, parseEscape, ih]
              · by_cases h7 : c = Char.ofNat 13
                · subst h7
                  simp +decide [escapeList, escapeChar, parseStringBody, parseEscape, ih]
                · by_cases h8 : c.toNat < 0x20
                  · have hx1 : hexVal (hexDigitChar (c.toNat / 16)) = some (c.toNat / 16) :=
                      hexVal_hexDigitChar _ (by omega)
                    have hx2 : hexVal (hexDigitChar (c.toNat % 16)) = some (c.toNat % 16) :=
                      hexVal_hexDigitChar _ (by omega)
                    have hn : ((0 * 16 + 0) * 16 + c.toNat / 16) * 16 + c.toNat % 16 = c.toNat := by
                      omega
                    have hs1 : ¬(0xD800 ≤ c.toNat ∧ c.toNat < 0xDC00) := by omega
                    have hs2 : ¬(0xDC00 ≤ c.toNat ∧ c.toNat < 0xE000) := by omega
                    simp only [escapeList, escapeChar]
                    rw [if_neg h1, if_neg h2, if_neg h3, if_neg h4, if_neg h5, if_neg h6,
                      if_neg h7, if_pos h8]
                    have hx0 : hexVal '0' = some 0 := rfl
                    simp +decide only [List.cons_append, List.nil_append, parseStringBody,
                      parseEscape, hx0, hx1, hx2, if_true, if_false]
                    rw [hn, parseUnicode_plain _ _ hs1 hs2, ih]
                    simp [char_ofNat_toNat]
                  · simp only [escapeList, escapeChar]
                    rw [if_neg h1, if_neg h2, if_neg h3, if_neg h4, if_neg h5, if_neg h6,
                      if_neg h7, if_neg h8]
                    simp only [List.cons_append, List.nil_append, List.singleton_append]
                    rw [parseStringBody, if_neg h1, if_neg h2, if_neg h8, ih]
                    rfl

end Soulbound

namespace Soulbound

set_option maxRecDepth 2000000
set_option maxHeartbeats 2000000

theorem char_toNat_ofNat_small (n : Nat) (h : n < 0xD800) : (Char.ofNat n).toNat = n := by
  rw [Char.ofNat, dif_pos (Or.inl h)]
  rfl

theorem natVals_ne_nil (n : Nat) : natVals n ≠ [] := by
  rw [natVals.eq_def]
  split_ifs <;> simp

theorem natVals_lt_ten (n : Nat) : ∀ d ∈ natVals n, d < 10 := by
  induction n using Nat.strong_induction_on with
  | _ n ih =>
    rw [natVals.eq_def]
    split_ifs with h
    · simpa using h
    · intro d hd
      rcases List.mem_append.1 hd with h1 | h2
      · exact ih (n / 10) (Nat.div_lt_self (by omega) (by omega)) d h1
      · simp at h2; omega

theorem digitsToNat_append (ds : List Nat) (d : Nat) :
    digitsToNat (ds ++ [d]) = 10 * digitsToNat ds + d := by
  simp [digitsToNat, List.foldl_append]
  omega

theorem digitsToNat_natVals (n : Nat) : digitsToNat (natVals n) = n := by
  induction n using Nat.strong_induction_on with
  | _ n ih =>
    rw [natVals.eq_def]
    split_ifs with h
    · simp [digitsToNat]
    · rw [digitsToNat_append, ih (n / 10) (Nat.div_lt_self (by omega) (by omega))]
      omega

theorem natVals_headD (n : Nat) (h : n ≠ 0) : (natVals n).headD 0 ≠ 0 := by
  induction n using Nat.strong_induction_on with
  | _ n ih =>
    rw [natVals.eq_def]
    split_ifs with h10
    · simpa using h
    · obtain ⟨d, l, hv⟩ : ∃ d l, natVals (n / 10) = d :: l := by
        cases hv : natVals (n / 10) with
        | nil => exact absurd hv (natVals_ne_nil _)
        | cons d l => exact ⟨d, l, rfl⟩
      have hd := ih (n / 10) (Nat.div_lt_self (by omega) (by omega)) (by omega)
      rw [hv] at hd
      rw [hv]
      simpa using hd

end Soulbound

namespace Soulbound

set_option maxRecDepth 2000000
set_option maxHeartbeats 2000000

theorem takeDigits_no_digit (l : List Char) (h : digitVal (l.headD ' ') = none) :
    takeDigits l = ([], l) := by
  cases l with
  | nil => rfl
  | cons c cs => simp at h; simp [takeDigits, h]

theorem takeDigits_digits (ds : List Nat) (rest : List Char)
    (hd : ∀ d ∈ ds, d < 10) (h : digitVal (rest.headD ' ') = none) :
    takeDigits ((ds.map fun d => Char.ofNat (48 + d)) ++ rest) = (ds, rest) := by
  induction ds with
  | nil => simpa using takeDigits_no_digit rest h
  | cons d ds ih =>
    have hdv : digitVal (Char.ofNat (48 + d)) = some d :=
      digitVal_digitChar d (hd d (by simp))
    simp only [List.map_cons, List.cons_append, takeDigits, hdv, List.append_eq]
    rw [ih (fun x hx => hd x (by simp [hx]))]

theorem parseNatNum_natDigits (n : Nat) (rest : List Char) (hrest : restOK rest = true) :
    parseNatNum (natDigits n ++ rest) = some (n, rest) := by
  have hro := of_decide_eq_true hrest
  have htd : takeDigits (natDigits n ++ rest) = (natVals n, rest) :=
    takeDigits_digits (natVals n) rest (natVals_lt_ten n) hro.1
  rw [parseNatNum]
  simp only [htd]
  rw [if_neg (by simpa using natVals_ne_nil n)]
  have hlz : ¬(1 < (natVals n).length ∧ (natVals n).headD 0 = 0) := by
    rcases Nat.eq_zero_or_pos n with h0 | hpos
    · subst h0
      rw [natVals.eq_def]
      norm_num
    · intro ⟨_, hh⟩
      exact natVals_headD n (by omega) hh
  rw [if_neg hlz,
    if_neg (by
      push_neg
      exact ⟨hro.2.1, hro.2.2.1, hro.2.2.2⟩)]
  rw [digitsToNat_natVals]

theorem natDigits_first (n : Nat) :
    ∃ d l, natDigits n = Char.ofNat (48 + d) :: l ∧ d < 10 := by
  obtain ⟨d, l, hv⟩ : ∃ d l, natVals n = d :: l := by
    cases hv : natVals n with
    | nil => exact absurd hv (natVals_ne_nil _)
    | cons d l => exact ⟨d, l, rfl⟩
  exact ⟨d, l.map fun x => Char.ofNat (48 + x),
    by rw [natDigits, hv, List.map_cons], natVals_lt_ten n d (by rw [hv]; simp)⟩

end Soulbound

namespace Soulbound

set_option maxRecDepth 2000000
set_option maxHeartbeats 2000000

theorem parseNumber_intChars (i : Int) (rest : List Char) (hrest : restOK rest = true) :
    parseNumber (intChars i ++ rest) = some (.num i, rest) := by
  obtain ⟨d, l, hnd, hdlt⟩ := natDigits_first i.natAbs
  by_cases hneg : i < 0
  · rw [intChars, if_pos hneg]
    rw [parseNumber]
    simp only [List.cons_append, List.headD_cons, if_true, List.drop_succ_cons,
      List.drop_zero]
    rw [parseNatNum_natDigits _ _ hrest]
    first
    | simp only [Option.map_some']
    | simp only [Option.map_some]
    have hi : (-(i.natAbs : Int)) = i := by omega
    rw [hi]
  · rw [intChars, if_neg hneg]
    rw [parseNumber]
    have hh : ((natDigits i.natAbs ++ rest).headD ' ') ≠ '-' := by
      rw [hnd]
      simp only [List.cons_append, List.headD_cons]
      intro hc
      have := congrArg Char.toNat hc
      rw [char_toNat_ofNat_small (48 + d) (by omega)] at this
      have h45 : Char.toNat '-' = 45 := rfl
      rw [h45] at this
      omega
    rw [if_neg hh]
    rw [parseNatNum_natDigits _ _ hrest]
    first
    | simp only [Option.map_some']
    | simp only [Option.map_some]
    have hi : ((i.natAbs : Int)) = i := by omega
    rw [hi]

end Soulbound

namespace Soulbound

set_option maxRecDepth 2000000
set_option maxHeartbeats 2000000

theorem char_ofNat_digit_ne (d : Nat) (hd : d < 10) (c : Char)
    (hc : c.toNat < 48 ∨ 57 < c.toNat) : Char.ofNat (48 + d) ≠ c := by
  intro he
  have := congrArg Char.toNat he
  rw [char_toNat_ofNat_small _ (by omega)] at this
  omega

theorem jChars_head (x : Json) :
    ∃ c l, jChars x = c :: l ∧ isWsChar c = false ∧ c ≠ ']' ∧ c ≠ '\x7d' := by
  cases x with
  | null => exact ⟨'n', ['u', 'l', 'l'], by simp [jChars], by decide, by decide, by decide⟩
  | bool b =>
    cases b with
    | true => exact ⟨'t', ['r', 'u', 'e'], by simp [jChars], by decide, by decide, by decide⟩
    | false => exact ⟨'f', ['a', 'l', 's', 'e'], by simp [jChars], by decide, by decide, by decide⟩
  | num i =>
    obtain ⟨d, l, hnd, hdlt⟩ := natDigits_first i.natAbs
    by_cases hneg : i < 0
    · refine ⟨'-', natDigits i.natAbs, ?_, by decide, by decide, by decide⟩
      simp only [jChars]
      rw [intChars, if_pos hneg]
    · refine ⟨Char.ofNat (48 + d), l, ?_, ?_, ?_, ?_⟩
      · simp only [jChars]
        rw [intChars, if_neg hneg, hnd]
      · simp only [isWsChar, decide_eq_false_iff_not]
        push_neg
        exact ⟨char_ofNat_digit_ne d hdlt _ (by decide), char_ofNat_digit_ne d hdlt _ (by decide),
          char_ofNat_digit_ne d hdlt _ (by decide), char_ofNat_digit_ne d hdlt _ (by decide)⟩
      · exact char_ofNat_digit_ne d hdlt _ (by decide)
      · exact char_ofNat_digit_ne d hdlt _ (by decide)
  | str s =>
    exact ⟨'"', escapeList s.data ++ ['"'], by simp [jChars, quoteChars], by decide, by decide,
      by decide⟩
  | arr xs =>
    exact ⟨'[', jCharsElems xs ++ [']'], by simp [jChars], by decide, by decide, by decide⟩
  | obj fs =>
    exact ⟨'\x7b', jCharsFields fs ++ ['\x7d'], by simp [jChars], by decide, by decide, by decide⟩

theorem skipWs_jChars (x : Json) (rest : List Char) :
    skipWs (jChars x ++ rest) = jChars x ++ rest := by
  obtain ⟨c, l, hcl, hws, _, _⟩ := jChars_head x
  rw [hcl, List.cons_append, skipWs_cons _ _ hws]

theorem jfuel_pos (x : Json) : 1 ≤ jfuel x := by
  cases x <;> simp [jfuel]

theorem jfuelElems_cons_pos (x : Json) (xs : List Json) : 1 ≤ jfuelElems (x :: xs) := by
  simp [jfuelElems]
  omega

theorem jCharsElems_cons (x : Json) (xs : List Json) :
    ∃ t, jCharsElems (x :: xs) = jChars x ++ t := by
  cases xs with
  | nil => exact ⟨[], by simp [jCharsElems]⟩
  | cons y ys => exact ⟨',' :: jCharsElems (y :: ys), by simp [jCharsElems]⟩

theorem jCharsFields_cons (k : String) (v : Json) (fs : List (String × Json)) :
    ∃ t, jCharsFields ((k, v) :: fs) = quoteChars k ++ (':' :: (jChars v ++ t)) := by
  cases fs with
  | nil => exact ⟨[], by simp [jCharsFields]⟩
  | cons f fs2 => exact ⟨',' :: jCharsFields (f :: fs2), by simp [jCharsFields]⟩

end Soulbound

namespace Soulbound

set_option maxRecDepth 2000000
set_option maxHeartbeats 2000000

mutual

theorem parseValue_jChars (x : Json) (rest : List Char) (fuel : Nat)
    (hf : jfuel x ≤ fuel) (hrest : restOK rest = true) :
    parseValue fuel (jChars x ++ rest) = some (x, rest) := by
  cases fuel with
  | zero => exact absurd hf (by have := jfuel_pos x; omega)
  | succ g =>
    cases x with
    | null =>
      simp only [parseValue, skipWs_jChars]
      simp +decide [jChars]
    | bool b =>
      cases b <;> (simp only [parseValue, skipWs_jChars]; simp +decide [jChars])
    | num i =>
      obtain ⟨d, l, hnd, hdlt⟩ := natDigits_first i.natAbs
      simp only [parseValue, skipWs_jChars]
      by_cases hneg : i < 0
      · have hcs : jChars (Json.num i) ++ rest = '-' :: (natDigits i.natAbs ++ rest) := by
          simp only [jChars]
          rw [intChars, if_pos hneg, List.cons_append]
        rw [hcs]
        rw [if_neg (by simp +decide [List.take_succ_cons]),
            if_neg (by simp +decide [List.take_succ_cons]),
            if_neg (by simp +decide [List.take_succ_cons]),
            if_neg (by simp +decide),
            if_neg (by simp +decide),
            if_neg (by simp +decide)]
        rw [← List.cons_append,
          show '-' :: natDigits i.natAbs = intChars i from by rw [intChars, if_pos hneg]]
        exact parseNumber_intChars i rest hrest
      · have hcs : jChars (Json.num i) ++ rest = Char.ofNat (48 + d) :: (l ++ rest) := by
          simp only [jChars]
          rw [intChars, if_neg hneg, hnd, List.cons_append]
        rw [hcs]
        rw [if_neg (by simp [List.take_succ_cons, char_ofNat_digit_ne d hdlt 'n' (by decide)]),
            if_neg (by simp [List.take_succ_cons, char_ofNat_digit_ne d hdlt 't' (by decide)]),
            if_neg (by simp [List.take_succ_cons, char_ofNat_digit_ne d hdlt 'f' (by decide)]),
            if_neg (by simp [char_ofNat_digit_ne d hdlt '"' (by decide)]),
            if_neg (by simp [char_ofNat_digit_ne d hdlt '[' (by decide)]),
            if_neg (by simp [char_ofNat_digit_ne d hdlt '\x7b' (by decide)])]
        rw [← List.cons_append, ← hnd,
          show natDigits i.natAbs = intChars i from by rw [intChars, if_neg hneg]]
        exact parseNumber_intChars i rest hrest
    | str s =>
      simp only [parseValue, skipWs_jChars]
      have hq : jChars (Json.str s) ++ rest = '"' :: (escapeList s.data ++ ('"' :: rest)) := by
        simp [jChars, quoteChars, List.append_assoc]
      rw [hq]
      rw [if_neg (by simp +decide [List.take_succ_cons]),
          if_neg (by simp +decide [List.take_succ_cons]),
          if_neg (by simp +decide [List.take_succ_cons]),
          if_pos (by simp)]
      simp only [List.drop_succ_cons, List.drop_zero]
      rw [parseStringBody_escape]
      rfl
    | arr xs =>
      cases xs with
      | nil =>
        simp only [parseValue, skipWs_jChars]
        have hq : jChars (Json.arr []) ++ rest = '[' :: (']' :: rest) := by
          simp [jChars, jCharsElems]
        rw [hq]
        rw [if_neg (by simp +decide [List.take_succ_cons]),
            if_neg (by simp +decide [List.take_succ_cons]),
            if_neg (by simp +decide [List.take_succ_cons]),
            if_neg (by simp +decide),
            if_pos (by simp)]
        simp only [List.drop_succ_cons, List.drop_zero]
        rw [skipWs_cons _ _ (by decide)]
        rw [if_pos (by simp)]
        simp
      | cons y ys =>
        obtain ⟨t, ht⟩ := jCharsElems_cons y ys
        obtain ⟨c, lc, hcl, hws, hrb, hcb⟩ := jChars_head y
        simp only [parseValue, skipWs_jChars]
        have hq : jChars (Json.arr (y :: ys)) ++ rest
            = '[' :: (jCharsElems (y :: ys) ++ (']' :: rest)) := by
          simp [jChars, List.append_assoc]
        rw [hq]
        rw [if_neg (by simp +decide [List.take_succ_cons]),
            if_neg (by simp +decide [List.take_succ_cons]),
            if_neg (by simp +decide [List.take_succ_cons]),
            if_neg (by simp +decide),
            if_pos (by simp)]
        simp only [List.drop_succ_cons, List.drop_zero]
        have hE : jCharsElems (y :: ys) ++ (']' :: rest) = c :: (lc ++ (t ++ (']' :: rest))) := by
          rw [ht, hcl]
          simp [List.append_assoc]
        rw [hE, skipWs_cons _ _ hws, ← hE]
        rw [if_neg (by rw [hE]; simp [hrb])]
        rw [parseElems_jChars (y :: ys) (by simp) rest g
          (by simp only [jfuel] at hf; omega)]
        rfl
    | obj fs =>
      cases fs with
      | nil =>
        simp only [parseValue, skipWs_jChars]
        have hq : jChars (Json.obj []) ++ rest = '\x7b' :: ('\x7d' :: rest) := by
          simp [jChars, jCharsFields]
        rw [hq]
        rw [if_neg (by simp +decide [List.take_succ_cons]),
            if_neg (by simp +decide [List.take_succ_cons]),
            if_neg (by simp +decide [List.take_succ_cons]),
            if_neg (by simp +decide),
            if_neg (by simp +decide),
            if_pos (by simp)]
        simp only [List.drop_succ_cons, List.drop_zero]
        rw [skipWs_cons _ _ (by decide)]
        rw [if_pos (by simp)]
        simp
      | cons kv fs2 =>
        obtain ⟨k, v⟩ := kv
        obtain ⟨t, ht⟩ := jCharsFields_cons k v fs2
        simp only [parseValue, skipWs_jChars]
        have hq : jChars (Json.obj ((k, v) :: fs2)) ++ rest
            = '\x7b' :: (jCharsFields ((k, v) :: fs2) ++ ('\x7d' :: rest)) := by
          simp [jChars, List.append_assoc]
        rw [hq]
        rw [if_neg (by simp +decide [List.take_succ_cons]),
            if_neg (by simp +decide [List.take_succ_cons]),
            if_neg (by simp +decide [List.take_succ_cons]),
            if_neg (by simp +decide),
            if_neg (by simp +decide),
            if_pos (by simp)]
        simp only [List.drop_succ_cons, List.drop_zero]
        have hE : jCharsFields ((k, v) :: fs2) ++ ('\x7d' :: rest)
            = '"' :: (escapeList k.data ++ ('"' :: (':' :: (jChars v ++ (t ++ ('\x7d' :: rest)))))) := by
          rw [ht]
          simp [quoteChars, List.append_assoc]
        rw [hE, skipWs_cons _ _ (by decide), ← hE]
        rw [if_neg (by rw [hE]; simp +decide)]
        rw [parseFields_jChars ((k, v) :: fs2) (by simp) rest g
          (by simp only [jfuel] at hf; omega)]
        rfl

theorem parseElems_jChars (xs : List Json) (hxs : xs ≠ []) (rest : List Char) (fuel : Nat)
    (hf : jfuelElems xs ≤ fuel) :
    parseElems fuel (jCharsElems xs ++ (']' :: rest)) = some (xs, rest) := by
  cases xs with
  | nil => exact absurd rfl hxs
  | cons x xs2 =>
    cases fuel with
    | zero => exact absurd hf (by have := jfuelElems_cons_pos x xs2; omega)
    | succ g =>
      simp only [parseElems]
      cases xs2 with
      | nil =>
        have hE : jCharsElems [x] = jChars x := by simp [jCharsElems]
        rw [hE]
        rw [parseValue_jChars x (']' :: rest) g
          (by simp only [jfuelElems, jfuelElems] at hf; omega) (by rfl)]
        dsimp only
        rw [skipWs_cons _ _ (by decide)]
        rw [if_neg (by simp +decide), if_pos (by simp)]
        simp
      | cons y ys =>
        have hE : jCharsElems (x :: y :: ys) ++ (']' :: rest)
            = jChars x ++ (',' :: (jCharsElems (y :: ys) ++ (']' :: rest))) := by
          simp [jCharsElems, List.append_assoc]
        rw [hE]
        rw [parseValue_jChars x _ g (by simp only [jfuelElems] at hf; omega) (by rfl)]
        dsimp only
        rw [skipWs_cons _ _ (by decide)]
        rw [if_pos (by simp)]
        simp only [List.drop_succ_cons, List.drop_zero]
        rw [parseElems_jChars (y :: ys) (by simp) rest g
          (by simp only [jfuelElems] at hf ⊢; omega)]
        rfl

theorem parseFields_jChars (fs : List (String × Json)) (hfs : fs ≠ []) (rest : List Char)
    (fuel : Nat) (hf : jfuelFields fs ≤ fuel) :
    parseFields fuel (jCharsFields fs ++ ('\x7d' :: rest)) = some (fs, rest) := by
  cases fs with
  | nil => exact absurd rfl hfs
  | cons kv fs2 =>
    obtain ⟨k, v⟩ := kv
    cases fuel with
    | zero => exact absurd hf (by simp [jfuelFields] at hf ⊢)
    | succ g =>
      cases fs2 with
      | nil =>
        have hE : jCharsFields [(k, v)] ++ ('\x7d' :: rest)
            = '"' :: (escapeList k.data ++ ('"' :: (':' :: (jChars v ++ ('\x7d' :: rest))))) := by
          simp [jCharsFields, quoteChars, List.append_assoc]
        simp only [parseFields]
        rw [hE, skipWs_cons _ _ (by decide)]
        rw [if_pos (by simp)]
        simp only [List.drop_succ_cons, List.drop_zero]
        rw [parseStringBody_escape]
        dsimp only
        rw [skipWs_cons _ _ (by decide)]
        rw [if_pos (by simp)]
        simp only [List.drop_succ_cons, List.drop_zero]
        rw [parseValue_jChars v ('\x7d' :: rest) g
          (by simp only [jfuelFields] at hf; omega) (by rfl)]
        dsimp only
        rw [skipWs_cons _ _ (by decide)]
        rw [if_neg (by simp +decide), if_pos (by simp)]
        rfl
      | cons f fs3 =>
        have hE : jCharsFields ((k, v) :: f :: fs3) ++ ('\x7d' :: rest)
            = '"' :: (escapeList k.data ++ ('"' :: (':' :: (jChars v
                ++ (',' :: (jCharsFields (f :: fs3) ++ ('\x7d' :: rest))))))) := by
          simp [jCharsFields, quoteChars, List.append_assoc]
        simp only [parseFields]
        rw [hE, skipWs_cons _ _ (by decide)]
        rw [if_pos (by simp)]
        simp only [List.drop_succ_cons, List.drop_zero]
        rw [parseStringBody_escape]
        dsimp only
        rw [skipWs_cons _ _ (by decide)]
        rw [if_pos (by simp)]
        simp only [List.drop_succ_cons, List.drop_zero]
        rw [parseValue_jChars v _ g (by simp only [jfuelFields] at hf; omega) (by rfl)]
        dsimp only
        rw [skipWs_cons _ _ (by decide)]
        rw [if_pos (by simp)]
        simp only [List.drop_succ_cons, List.drop_zero]
        rw [parseFields_jChars (f :: fs3) (by simp) rest g
          (by simp only [jfuelFields] at hf ⊢; omega)]
        rfl

end

end Soulbound

namespace Soulbound

set_option maxRecDepth 2000000
set_option maxHeartbeats 2000000

mutual

theorem jfuel_le (x : Json) : jfuel x ≤ (jChars x).length := by
  cases x with
  | null => simp [jfuel, jChars]
  | bool b => cases b <;> simp [jfuel, jChars]
  | num i =>
    obtain ⟨d, l, hnd, _⟩ := natDigits_first i.natAbs
    have h1 : 1 ≤ (intChars i).length := by
      rw [intChars]
      split_ifs <;> simp [hnd]
    simpa [jfuel, jChars] using h1
  | str s => simp [jfuel, jChars, quoteChars]
  | arr xs =>
    cases xs with
    | nil => simp [jfuel, jfuelElems, jChars]
    | cons y ys =>
      have h := jfuelElems_le (y :: ys)
      simp only [jfuel, jChars, List.length_cons, List.length_append]
      omega
  | obj fs =>
    cases fs with
    | nil => simp [jfuel, jfuelFields, jChars]
    | cons f fs2 =>
      have h := jfuelFields_le (f :: fs2)
      simp only [jfuel, jChars, List.length_cons, List.length_append]
      omega

theorem jfuelElems_le (xs : List Json) : jfuelElems xs ≤ (jCharsElems xs).length + 1 := by
  cases xs with
  | nil => simp [jfuelElems]
  | cons x xs2 =>
    cases xs2 with
    | nil =>
      have h := jfuel_le x
      simp only [jfuelElems, jCharsElems]
      omega
    | cons y ys =>
      have h1 := jfuel_le x
      have h2 := jfuelElems_le (y :: ys)
      simp only [jfuelElems, jCharsElems, List.length_append, List.length_cons] at h2 ⊢
      omega

theorem jfuelFields_le (fs : List (String × Json)) :
    jfuelFields fs ≤ (jCharsFields fs).length + 1 := by
  cases fs with
  | nil => simp [jfuelFields]
  | cons kv fs2 =>
    obtain ⟨k, v⟩ := kv
    cases fs2 with
    | nil =>
      have h := jfuel_le v
      simp only [jfuelFields, jCharsFields, List.length_append, List.length_cons]
      omega
    | cons f fs3 =>
      have h1 := jfuel_le v
      have h2 := jfuelFields_le (f :: fs3)
      simp only [jfuelFields, jCharsFields, List.length_append, List.length_cons] at h2 ⊢
      omega

end

/-- Serialize-then-parse is the identity on JSON values. -/
theorem jsonParse_jsonStringify (x : Json) : jsonParse (jsonStringify x) = some x := by
  rw [jsonParse, jsonStringify]
  have hdata : (String.mk (jChars x)).data = jChars x := rfl
  have hlen : (String.mk (jChars x)).length = (jChars x).length := rfl
  rw [hdata, hlen]
  have hf : jfuel x ≤ (jChars x).length + 1 := le_trans (jfuel_le x) (by omega)
  have h := parseValue_jChars x [] ((jChars x).length + 1) hf (by rfl)
  rw [List.append_nil] at h
  rw [h]
  dsimp only
  simp [skipWs]

end Soulbound

namespace Soulbound

set_option maxRecDepth 2000000
set_option maxHeartbeats 2000000

theorem b64Val_b64Char : ∀ n, n < 64 → b64Val (b64Char n) = some n := by decide

theorem b64Char_ne_eq : ∀ n, n < 64 → b64Char n ≠ '=' := by decide

theorem base64_roundtrip : ∀ (bs : List Nat), (∀ b ∈ bs, b < 256) →
    base64Decode (base64Chars bs) = some bs
  | [], _ => by simp [base64Chars, base64Decode]
  | [b0], hb => by
    have h0 : b0 < 256 := hb b0 (by simp)
    have hv0 : b64Val (b64Char (b0 / 4)) = some (b0 / 4) := b64Val_b64Char _ (by omega)
    have hv1 : b64Val (b64Char (b0 % 4 * 16)) = some (b0 % 4 * 16) := b64Val_b64Char _ (by omega)
    simp only [base64Chars, base64Decode, hv0, hv1]
    rw [if_pos (by simp)]
    have hb0 : b0 / 4 * 4 + b0 % 4 * 16 / 16 = b0 := by omega
    rw [hb0]
  | [b0, b1], hb => by
    have h0 : b0 < 256 := hb b0 (by simp)
    have h1 : b1 < 256 := hb b1 (by simp)
    have hv0 : b64Val (b64Char (b0 / 4)) = some (b0 / 4) := b64Val_b64Char _ (by omega)
    have hv1 : b64Val (b64Char (b0 % 4 * 16 + b1 / 16)) = some (b0 % 4 * 16 + b1 / 16) :=
      b64Val_b64Char _ (by omega)
    have hv2 : b64Val (b64Char (b1 % 16 * 4)) = some (b1 % 16 * 4) := b64Val_b64Char _ (by omega)
    have hne2 : b64Char (b1 % 16 * 4) ≠ '=' := b64Char_ne_eq _ (by omega)
    simp only [base64Chars, base64Decode, hv0, hv1]
    rw [if_neg (by simp [hne2]), if_pos (by simp)]
    rw [hv2]
    dsimp only
    have e0 : b0 / 4 * 4 + (b0 % 4 * 16 + b1 / 16) / 16 = b0 := by omega
    have e1 : (b0 % 4 * 16 + b1 / 16) % 16 * 16 + b1 % 16 * 4 / 4 = b1 := by omega
    rw [e0, e1]
  | b0 :: b1 :: b2 :: rest, hb => by
    have h0 : b0 < 256 := hb b0 (by simp)
    have h1 : b1 < 256 := hb b1 (by simp)
    have h2 : b2 < 256 := hb b2 (by simp)
    have hv0 : b64Val (b64Char (b0 / 4)) = some (b0 / 4) := b64Val_b64Char _ (by omega)
    have hv1 : b64Val (b64Char (b0 % 4 * 16 + b1 / 16)) = some (b0 % 4 * 16 + b1 / 16) :=
      b64Val_b64Char _ (by omega)
    have hv2 : b64Val (b64Char (b1 % 16 * 4 + b2 / 64)) = some (b1 % 16 * 4 + b2 / 64) :=
      b64Val_b64Char _ (by omega)
    have hv3 : b64Val (b64Char (b2 % 64)) = some (b2 % 64) := b64Val_b64Char _ (by omega)
    have hne2 : b64Char (b1 % 16 * 4 + b2 / 64) ≠ '=' := b64Char_ne_eq _ (by omega)
    have hne3 : b64Char (b2 % 64) ≠ '=' := b64Char_ne_eq _ (by omega)
    simp only [base64Chars, base64Decode, hv0, hv1]
    rw [if_neg (by simp [hne2]), if_neg (by simp [hne3])]
    rw [hv2, hv3]
    dsimp only
    rw [base64_roundtrip rest (fun b hbm => hb b (by simp [hbm]))]
    have e0 : b0 / 4 * 4 + (b0 % 4 * 16 + b1 / 16) / 16 = b0 := by omega
    have e1 : (b0 % 4 * 16 + b1 / 16) % 16 * 16 + (b1 % 16 * 4 + b2 / 64) / 4 = b1 := by omega
    have e2 : (b1 % 16 * 4 + b2 / 64) % 4 * 64 + b2 % 64 = b2 := by omega
    rw [e0, e1, e2]
    rfl

end Soulbound

namespace Soulbound

set_option maxRecDepth 2000000
set_option maxHeartbeats 2000000

theorem utf8Bytes_mk_cons (c : Char) (cs : List Char) :
    utf8Bytes (String.mk (c :: cs)) = utf8EncodeChar c ++ utf8Bytes (String.mk cs) := by
  simp [utf8Bytes]

theorem utf8EncodeChar_len_pos (c : Char) : 1 ≤ (utf8EncodeChar c).length := by
  simp only [utf8EncodeChar]
  split_ifs <;> simp

theorem utf8Bytes_len_ge (cs : List Char) : cs.length ≤ (utf8Bytes (String.mk cs)).length := by
  induction cs with
  | nil => simp [utf8Bytes]
  | cons c cs ih =>
    rw [utf8Bytes_mk_cons]
    have := utf8EncodeChar_len_pos c
    simp only [List.length_append, List.length_cons]
    omega

theorem utf8DecodeGo_roundtrip (cs : List Char) (fuel : Nat) (hf : cs.length ≤ fuel) :
    utf8DecodeGo fuel (utf8Bytes (String.mk cs)) = some cs := by
  induction cs generalizing fuel with
  | nil => cases fuel <;> simp [utf8Bytes, utf8DecodeGo]
  | cons c cs ih =>
    cases fuel with
    | zero => simp at hf
    | succ g =>
      have hg : cs.length ≤ g := by simp at hf; omega
      have hv : c.toNat < 55296 ∨ (57343 < c.toNat ∧ c.toNat < 1114112) := c.valid
      rw [utf8Bytes_mk_cons]
      simp only [utf8EncodeChar]
      by_cases h1 : c.toNat < 0x80
      · rw [if_pos h1]
        simp only [List.singleton_append, List.append_eq, List.nil_append, utf8DecodeGo]
        rw [if_pos h1, ih g hg]
        simp [char_ofNat_toNat]
      · rw [if_neg h1]
        by_cases h2 : c.toNat < 0x800
        · rw [if_pos h2]
          simp only [List.cons_append, List.nil_append, List.append_eq, List.singleton_append,
            List.length_append, utf8DecodeGo, List.headD_cons,
            List.length_cons, List.drop_succ_cons, List.drop_zero]
          rw [if_neg (by omega), if_neg (by omega), if_pos (by omega),
            if_pos (by constructor <;> omega)]
          have hval : (192 + c.toNat / 64 - 192) * 64 + (128 + c.toNat % 64 - 128)
              = c.toNat := by omega
          rw [hval, ih g hg]
          simp [char_ofNat_toNat]
        · rw [if_neg h2]
          by_cases h3 : c.toNat < 0x10000
          · rw [if_pos h3]
            simp only [List.cons_append, List.nil_append, List.append_eq, List.singleton_append,
              List.length_append, utf8DecodeGo, List.headD_cons,
              List.length_cons, List.drop_succ_cons, List.drop_zero]
            rw [if_neg (by omega), if_neg (by omega), if_neg (by omega), if_pos (by omega),
              if_pos (by refine ⟨by omega, ⟨by omega, by omega⟩, by omega, by omega⟩)]
            have hval : (224 + c.toNat / 4096 - 224) * 4096 + (128 + c.toNat / 64 % 64 - 128) * 64
                + (128 + c.toNat % 64 - 128) = c.toNat := by omega
            rw [hval]
            rw [if_neg (by omega), ih g hg]
            simp [char_ofNat_toNat]
          · rw [if_neg h3]
            simp only [List.cons_append, List.nil_append, List.append_eq, List.singleton_append,
              List.length_append, utf8DecodeGo, List.headD_cons,
              List.length_cons, List.drop_succ_cons, List.drop_zero]
            rw [if_neg (by omega), if_neg (by omega), if_neg (by omega), if_neg (by omega),
              if_pos (by omega),
              if_pos (by refine ⟨by omega, ⟨by omega, by omega⟩, ⟨by omega, by omega⟩,
                by omega, by omega⟩)]
            have hval : (240 + c.toNat / 262144 - 240) * 262144
                + (128 + c.toNat / 4096 % 64 - 128) * 4096
                + (128 + c.toNat / 64 % 64 - 128) * 64
                + (128 + c.toNat % 64 - 128) = c.toNat := by omega
            rw [hval]
            rw [if_neg (by omega), ih g hg]
            simp [char_ofNat_toNat]

theorem utf8_roundtrip (cs : List Char) : utf8Decode (utf8Bytes (String.mk cs)) = some cs := by
  rw [utf8Decode]
  exact utf8DecodeGo_roundtrip cs _ (utf8Bytes_len_ge cs)

end Soulbound

namespace Soulbound

set_option maxRecDepth 2000000
set_option maxHeartbeats 2000000

theorem utf8EncodeChar_lt (c : Char) : ∀ b ∈ utf8EncodeChar c, b < 256 := by
  have hv : c.toNat < 55296 ∨ (57343 < c.toNat ∧ c.toNat < 1114112) := c.valid
  intro b hb
  simp only [utf8EncodeChar] at hb
  split_ifs at hb with h1 h2 h3 <;> simp at hb
  · omega
  · rcases hb with rfl | rfl <;> omega
  · rcases hb with rfl | rfl | rfl <;> omega
  · rcases hb with rfl | rfl | rfl | rfl <;> omega

theorem utf8Bytes_lt (cs : List Char) : ∀ b ∈ utf8Bytes (String.mk cs), b < 256 := by
  induction cs with
  | nil => simp [utf8Bytes]
  | cons c cs ih =>
    rw [utf8Bytes_mk_cons]
    intro b hb
    rcases List.mem_append.1 hb with h | h
    · exact utf8EncodeChar_lt c b h
    · exact ih b h

theorem isLineTerm_b64Char : ∀ n, n < 64 → isLineTerm (b64Char n) = false := by decide

theorem base64Chars_lineterm : ∀ (bs : List Nat), (∀ b ∈ bs, b < 256) →
    ∀ c ∈ base64Chars bs, isLineTerm c = false
  | [], _ => by simp [base64Chars]
  | [b0], hb => by
    have h0 : b0 < 256 := hb b0 (by simp)
    intro c hc
    simp only [base64Chars, List.mem_cons] at hc
    rcases hc with rfl | rfl | rfl | rfl | hc
    · exact isLineTerm_b64Char _ (by omega)
    · exact isLineTerm_b64Char _ (by omega)
    · decide
    · decide
    · simp at hc
  | [b0, b1], hb => by
    have h0 : b0 < 256 := hb b0 (by simp)
    have h1 : b1 < 256 := hb b1 (by simp)
    intro c hc
    simp only [base64Chars, List.mem_cons] at hc
    rcases hc with rfl | rfl | rfl | rfl | hc
    · exact isLineTerm_b64Char _ (by omega)
    · exact isLineTerm_b64Char _ (by omega)
    · exact isLineTerm_b64Char _ (by omega)
    · decide
    · simp at hc
  | b0 :: b1 :: b2 :: rest, hb => by
    have h0 : b0 < 256 := hb b0 (by simp)
    have h1 : b1 < 256 := hb b1 (by simp)
    have h2 : b2 < 256 := hb b2 (by simp)
    intro c hc
    simp only [base64Chars, List.mem_cons] at hc
    rcases hc with rfl | rfl | rfl | rfl | hc
    · exact isLineTerm_b64Char _ (by omega)
    · exact isLineTerm_b64Char _ (by omega)
    · exact isLineTerm_b64Char _ (by omega)
    · exact isLineTerm_b64Char _ (by omega)
    · exact base64Chars_lineterm rest (fun b hbm => hb b (by simp [hbm])) c hc

theorem base64Chars_ne_nil : ∀ (bs : List Nat), bs ≠ [] → base64Chars bs ≠ []
  | [], h => absurd rfl h
  | [_], _ => by simp [base64Chars]
  | [_, _], _ => by simp [base64Chars]
  | _ :: _ :: _ :: _, _ => by simp [base64Chars]

theorem jChars_ne_nil (x : Json) : jChars x ≠ [] := by
  obtain ⟨c, l, hcl, _, _, _⟩ := jChars_head x
  simp [hcl]

theorem utf8Bytes_ne_nil (cs : List Char) (h : cs ≠ []) : utf8Bytes (String.mk cs) ≠ [] := by
  intro he
  have hlen := utf8Bytes_len_ge cs
  rw [he] at hlen
  simp only [List.length_nil, Nat.le_zero] at hlen
  exact h (List.eq_nil_of_length_eq_zero hlen)

end Soulbound

namespace Soulbound

set_option maxRecDepth 2000000
set_option maxHeartbeats 2000000

/-- C5: encoding any registration JSON value with `toBase64DataURI` and
then decoding the resulting data: URI with `fetchRegistrationFile`
recovers the original JSON value, for every network state (the data:
branch consults no network). -/
theorem fetch_decode_encode (net : Net) (x : Json) :
    fetchRegistrationFile net (toBase64DataURI x) = some x := by
  have hdata : (toBase64DataURI x).data
      = "data:application/json;base64,".data ++ base64Chars (utf8Bytes (jsonStringify x)) := by
    rw [toBase64DataURI, String.data_append]
  have hbytes : ∀ b ∈ utf8Bytes (jsonStringify x), b < 256 := utf8Bytes_lt (jChars x)
  have hpne : base64Chars (utf8Bytes (jsonStringify x)) ≠ [] :=
    base64Chars_ne_nil _ (utf8Bytes_ne_nil (jChars x) (jChars_ne_nil x))
  have hall : (base64Chars (utf8Bytes (jsonStringify x))).all (fun c => !(isLineTerm c))
      = true := by
    rw [List.all_eq_true]
    intro c hc
    rw [base64Chars_lineterm _ hbytes c hc]
    rfl
  have hne : toBase64DataURI x ≠ "" := by
    intro h
    have hl := congrArg String.length h
    rw [toBase64DataURI, String.length_append] at hl
    have h29 : ("data:application/json;base64," : String).length = 29 := rfl
    have h0 : ("" : String).length = 0 := rfl
    omega
  have hmatch : dataB64MatchChars ((toBase64DataURI x).data)
      = some (base64Chars (utf8Bytes (jsonStringify x))) := by
    rw [hdata]
    rw [show dataB64MatchChars ("data:application/json;base64,".data
          ++ base64Chars (utf8Bytes (jsonStringify x)))
        = if base64Chars (utf8Bytes (jsonStringify x)) ≠ []
              ∧ (base64Chars (utf8Bytes (jsonStringify x))).all (fun c => !(isLineTerm c))
          then some (base64Chars (utf8Bytes (jsonStringify x))) else none
      from rfl]
    rw [if_pos ⟨hpne, hall⟩]
  have hsw : startsWithChars dataPrefix (toBase64DataURI x) = true := by
    simp only [startsWithChars, hdata]
    rfl
  have hb64 : base64Decode (base64Chars (utf8Bytes (jsonStringify x)))
      = some (utf8Bytes (jsonStringify x)) := base64_roundtrip _ hbytes
  have hutf : utf8Decode (utf8Bytes (jsonStringify x)) = some (jChars x) :=
    utf8_roundtrip (jChars x)
  have hjp : jsonParse (String.mk (jChars x)) = some x := jsonParse_jsonStringify x
  rw [fetchRegistrationFile, if_neg hne, fetchBody]
  rw [if_pos (by rw [hsw])]
  rw [hmatch]
  dsimp only
  rw [hb64]
  dsimp only [Option.bind]
  rw [hutf]
  dsimp only
  rw [hjp]

end Soulbound

namespace Soulbound

set_option maxRecDepth 2000000
set_option maxHeartbeats 2000000

/-- C6: `fetchRegistrationFile` never lets an exception escape — every
throw site inside its try block (modelled as `Except.error` in
`fetchBody`) is caught and yields null, an empty URI yields null, a
data: URI matching neither regex yields null, and for a non-data URI a
network rejection (timeout), a non-OK response, or an OK response with
a non-JSON body each yield null; and `lookupAgent`'s registration field
is exactly `fetchRegistrationFile` of the token URI, hence null
whenever resolution fails for any reason. -/
theorem fetchRegistrationFile_total :
    (∀ (net : Net) (uri : String) (e : String),
        fetchBody net uri = .error e → fetchRegistrationFile net uri = none)
    ∧ (∀ net : Net, fetchRegistrationFile net "" = none)
    ∧ (∀ (net : Net) (uri : String),
        startsWithChars dataPrefix uri = true →
        dataB64MatchChars uri.data = none →
        dataPlainMatchChars uri.data = none →
        fetchRegistrationFile net uri = none)
    ∧ (∀ (net : Net) (uri : String) (e : String),
        startsWithChars dataPrefix uri = false →
        net (resolveUrl uri) = .failure e →
        fetchRegistrationFile net uri = none)
    ∧ (∀ (net : Net) (uri : String) (body : Option Json),
        startsWithChars dataPrefix uri = false →
        net (resolveUrl uri) = .response false body →
        fetchRegistrationFile net uri = none)
    ∧ (∀ (net : Net) (uri : String),
        startsWithChars dataPrefix uri = false →
        net (resolveUrl uri) = .response true none →
        fetchRegistrationFile net uri = none)
    ∧ (∀ (cr : ChainReads) (agentId : Nat) (a : ChainAgent),
        lookupAgent cr agentId = .ok a →
        a.registration = fetchRegistrationFile cr.net a.tokenURI) := by
  refine ⟨?_, ?_, ?_, ?_, ?_, ?_, ?_⟩
  · intro net uri e h
    by_cases hu : uri = ""
    · rw [fetchRegistrationFile, if_pos hu]
    · rw [fetchRegistrationFile, if_neg hu, h]
  · intro net
    rw [fetchRegistrationFile, if_pos rfl]
  · intro net uri h1 h2 h3
    have hu : uri ≠ "" := by
      intro h
      subst h
      simp [startsWithChars, dataPrefix] at h1
    rw [fetchRegistrationFile, if_neg hu, fetchBody, if_pos h1, h2]
    dsimp only
    rw [h3]
  · intro net uri e h1 h2
    by_cases hu : uri = ""
    · rw [fetchRegistrationFile, if_pos hu]
    · rw [fetchRegistrationFile, if_neg hu, fetchBody,
        if_neg (by rw [h1]; exact Bool.false_ne_true), h2]
  · intro net uri body h1 h2
    by_cases hu : uri = ""
    · rw [fetchRegistrationFile, if_pos hu]
    · rw [fetchRegistrationFile, if_neg hu, fetchBody,
        if_neg (by rw [h1]; exact Bool.false_ne_true), h2]
      dsimp only
      rw [if_neg (by exact Bool.false_ne_true)]
  · intro net uri h1 h2
    by_cases hu : uri = ""
    · rw [fetchRegistrationFile, if_pos hu]
    · rw [fetchRegistrationFile, if_neg hu, fetchBody,
        if_neg (by rw [h1]; exact Bool.false_ne_true), h2]
      rfl
  · intro cr agentId a h
    rw [lookupAgent] at h
    cases ho : cr.ownerOf agentId with
    | error e =>
      rw [ho] at h
      cases ht : cr.tokenURI agentId <;> rw [ht] at h <;> dsimp only at h <;> cases h
    | ok owner =>
      rw [ho] at h
      cases ht : cr.tokenURI agentId with
      | error e =>
        rw [ht] at h
        dsimp only at h
        cases h
      | ok uri =>
        rw [ht] at h
        dsimp only at h
        injection h with h2
        subst h2
        rfl

end Soulbound

namespace Soulbound

set_option maxRecDepth 2000000
set_option maxHeartbeats 2000000

theorem fetchRegistrationFile_total_witness :
    fetchRegistrationFile netFailEx "" = none
    ∧ fetchRegistrationFile netFailEx "data:text/plain" = none
    ∧ fetchRegistrationFile netFailEx "https://example.com/reg.json" = none
    ∧ fetchRegistrationFile netNotOkEx "https://example.com/reg.json" = none
    ∧ fetchRegistrationFile netNoBodyEx "https://example.com/reg.json" = none
    ∧ agentC6.registration = fetchRegistrationFile crC6.net agentC6.tokenURI := by
  refine ⟨fetchRegistrationFile_total.2.1 netFailEx,
    fetchRegistrationFile_total.2.2.1 netFailEx "data:text/plain" (by rfl) (by rfl) (by rfl),
    fetchRegistrationFile_total.2.2.2.1 netFailEx "https://example.com/reg.json" "timeout"
      (by rfl) (by rfl),
    fetchRegistrationFile_total.2.2.2.2.1 netNotOkEx "https://example.com/reg.json" none
      (by rfl) (by rfl),
    fetchRegistrationFile_total.2.2.2.2.2.1 netNoBodyEx "https://example.com/reg.json"
      (by rfl) (by rfl),
    fetchRegistrationFile_total.2.2.2.2.2.2 crC6 1 agentC6 (by rfl)⟩

end Soulbound

namespace Soulbound

set_option maxRecDepth 2000000
set_option maxHeartbeats 2000000

/-! ## Lemmas on the builder and the update workflow -/

theorem buildRegistration_ok_of (cfg : Config) (ws : Workspace) (h : HashResults) (now : String)
    (hws : cfg.workspacePath = some ws) (hh : hashIdentityFiles ws = .ok h) :
    buildRegistration cfg now = .ok (regJson cfg (some h) now) := by
  rw [buildRegistration, hws]
  dsimp only
  rw [hh]

theorem regJson_agentId_none (cfg : Config) (hs : Option HashResults) (now : String)
    (h : cfg.agentId = some 0) :
    regJson cfg hs now = regJson {cfg with agentId := none} hs now := by
  rw [regJson.eq_def, regJson.eq_def, h]
  rfl

theorem buildRegistration_agentId_none (cfg : Config) (now : String) (h : cfg.agentId = some 0) :
    buildRegistration cfg now = buildRegistration {cfg with agentId := none} now := by
  rw [buildRegistration, buildRegistration,
    show ({cfg with agentId := none} : Config).workspacePath = cfg.workspacePath from rfl]
  cases hws : cfg.workspacePath with
  | none =>
    dsimp only
    rw [regJson_agentId_none cfg none now h, hws]
  | some ws =>
    dsimp only
    cases hh : hashIdentityFiles ws with
    | error e => rfl
    | ok hres =>
      dsimp only
      rw [regJson_agentId_none cfg (some hres) now h, hws]

theorem updateStep2_not_truthy (c : Config) (cr : ChainReads) (nh : HashResults)
    (h : jsNumTruthy c.agentId = false) :
    updateStep2 c cr nh = some [] := by
  rw [updateStep2, if_neg (by rw [h]; exact Bool.false_ne_true)]

theorem diffChanges_len_zero_iff (nh : HashResults) (onChain : Json) :
    (diffChanges nh onChain).length = 0
      ↔ ∀ f ∈ IDENTITY_FILES, hashNeq (nh.files f).hash (jsGet onChain f.fileName) = false := by
  rw [diffChanges, List.length_map, List.length_eq_zero]
  first
  | rw [List.filter_eq_nil]
  | rw [List.filter_eq_nil_iff]
  constructor
  · intro h0 f hf
    cases hb : hashNeq (nh.files f).hash (jsGet onChain f.fileName) with
    | false => rfl
    | true => exact absurd hb (h0 f hf)
  · intro h0 f hf
    rw [h0 f hf]
    exact Bool.false_ne_true

theorem jsGet_regJson_registrations (c : Config) (hs : Option HashResults) (now : String)
    (h : jsNumTruthy c.agentId = false) :
    jsGet (regJson c hs now) "registrations" = some (.arr []) := by
  rw [regJson.eq_def, h, if_neg Bool.false_ne_true]
  rfl

end Soulbound

namespace Soulbound

set_option maxRecDepth 2000000
set_option maxHeartbeats 2000000

/-- C1: the Hashing Engine's `keccak256` calls Node's
`createHash("sha3-256")`, which computes the NIST SHA3-256 digest, not
the on-chain-compatible Ethereum keccak-256 the claim requires and the
`_algorithm: "keccak256"` tag advertises: on the empty input and on the
one-byte document "a" the two algorithms produce different digests,
while the registration's identityFiles block still tags the hashes
"keccak256". -/
theorem keccak256_wrong_algorithm :
    keccak256 [] = "0xa7ffc6f8bf1ed76651c14756a061d662f580ff4de43b49fa82d80a4b80f8434a"
    ∧ ethKeccak256 [] = "0xc5d2460186f7233c927e7db2dcc703c0e500b653ca82273b7bfad8045d85a470"
    ∧ keccak256 [] ≠ ethKeccak256 []
    ∧ jsGet (identityFilesJson lhABC "2026-01-01T00:00:00.000Z") "_algorithm"
        = some (.str "keccak256")
    ∧ jsGet (identityFilesJson lhABC "2026-01-01T00:00:00.000Z") "SOUL.md"
        = some (.str (keccak256 [97]))
    ∧ keccak256 [97] ≠ ethKeccak256 [97] :=
  ⟨by decide, by decide, by decide, by rfl, by rfl, by decide⟩

/-- C9 counterexample: with all three documents matching the on-chain
hashes but the on-chain `_composite` differing from the freshly
computed composite, the update workflow still takes the early no-op
exit and builds no transaction — the diff never consults `_composite`,
contrary to the claim that the composite is diffed as well. -/
theorem update_composite_not_diffed_cex :
    updateMain configC9 crC9 "2026-01-01T00:00:00.000Z" = .noop
    ∧ jsGet ifsC9 "_composite" = some (.str zeroHash)
    ∧ lhABC.composite.hash ≠ zeroHash :=
  ⟨by rfl, by rfl, by decide⟩

/-- C9 (amended): when the agent id is truthy and the on-chain
registration carries a truthy `identityFiles` block, the update
workflow takes the early no-op exit (reported, no transaction built)
exactly when the three documents' local hashes strictly equal the
on-chain values — only the three documents are diffed, never the
`_composite` entry.  In particular a second run with unchanged
documents against a chain carrying the first run's hashes reports zero
differences and builds nothing. -/
theorem update_noop_iff_three_files_match
    (cfg : Config) (cr : ChainReads) (now : String) (ws : Workspace)
    (h : HashResults) (a : ChainAgent) (reg ifs : Json)
    (hws : cfg.workspacePath = some ws)
    (hid : jsNumTruthy cfg.agentId = true)
    (hh : hashIdentityFiles ws = .ok h)
    (hla : lookupAgent cr (cfg.agentId.getD 0) = .ok a)
    (hreg : a.registration = some reg)
    (hifs : jsGet reg "identityFiles" = some ifs)
    (ht : jsTruthy ifs = true) :
    updateMain cfg cr now = .noop
      ↔ ∀ f ∈ IDENTITY_FILES,
          hashNeq (h.files f).hash (jsGet ifs f.fileName) = false := by
  have hstep : updateStep2 cfg cr h
      = if (diffChanges h ifs).length = 0 then none else some (diffChanges h ifs) := by
    rw [updateStep2, if_pos hid, hla]
    dsimp only
    rw [hreg]
    dsimp only
    rw [hifs]
    dsimp only
    rw [if_pos ht]
  rw [updateMain, hws]
  dsimp only
  rw [hh]
  dsimp only
  rw [hstep]
  by_cases hd : (diffChanges h ifs).length = 0
  · rw [if_pos hd]
    dsimp only
    exact ⟨fun _ => (diffChanges_len_zero_iff h ifs).mp hd, fun _ => rfl⟩
  · rw [if_neg hd]
    dsimp only
    rw [buildRegistration_ok_of cfg ws h now hws hh]
    dsimp only
    rw [if_pos hid]
    constructor
    · intro hcon
      exact UpdateResult.noConfusion hcon
    · intro hall
      exact absurd ((diffChanges_len_zero_iff h ifs).mpr hall) hd

theorem update_noop_iff_three_files_match_witness :
    updateMain configC9 crC9 "t2" = .noop :=
  (update_noop_iff_three_files_match configC9 crC9 "t2" wsABC lhABC agentC9 regC9 ifsC9
    (by rfl) (by rfl) (by rfl) (by rfl) (by rfl) (by rfl) (by rfl)).mpr (by decide)

/-- C10: the falsy agent id 0 is treated as "not registered"
everywhere: a configuration with agentId 0 builds the same registration
as one with no agentId at all, a falsy agent id always yields an empty
registrations list, the update workflow with agentId 0 behaves
identically to the no-agent-id configuration regardless of the chain
(the on-chain diff is skipped), and a built transaction is `register`
exactly when the agent id is falsy, `setAgentURI` exactly when it is
truthy. -/
theorem agentId_zero_not_registered :
    (∀ (cfg : Config) (now : String), cfg.agentId = some 0 →
        buildRegistration cfg now = buildRegistration {cfg with agentId := none} now)
    ∧ (∀ (cfg : Config) (now : String) (j : Json), jsNumTruthy cfg.agentId = false →
        buildRegistration cfg now = .ok j → jsGet j "registrations" = some (.arr []))
    ∧ (∀ (cfg : Config) (cr cr2 : ChainReads) (now : String), cfg.agentId = some 0 →
        updateMain cfg cr now = updateMain {cfg with agentId := none} cr2 now)
    ∧ (∀ (cfg : Config) (cr : ChainReads) (now : String) (tx : Tx) (ch : List Change),
        updateMain cfg cr now = .txBuilt tx ch →
        (jsNumTruthy cfg.agentId = true ↔ ∃ i u, tx = .updateURITx i u)) := by
  refine ⟨fun cfg now h => buildRegistration_agentId_none cfg now h, ?_, ?_, ?_⟩
  · intro cfg now j h hb
    rw [buildRegistration] at hb
    cases hws : cfg.workspacePath with
    | none =>
      rw [hws] at hb
      dsimp only at hb
      injection hb with hj
      subst hj
      exact jsGet_regJson_registrations cfg none now h
    | some ws =>
      rw [hws] at hb
      dsimp only at hb
      cases hh : hashIdentityFiles ws with
      | error e =>
        rw [hh] at hb
        dsimp only at hb
        exact Except.noConfusion hb
      | ok hres =>
        rw [hh] at hb
        dsimp only at hb
        injection hb with hj
        subst hj
        exact jsGet_regJson_registrations cfg (some hres) now h
  · intro cfg cr cr2 now h
    have hjs : jsNumTruthy cfg.agentId = false := by rw [h]; rfl
    rw [updateMain, updateMain,
      show ({cfg with agentId := none} : Config).workspacePath = cfg.workspacePath from rfl]
    cases hws : cfg.workspacePath with
    | none => rfl
    | some ws =>
      dsimp only
      cases hh : hashIdentityFiles ws with
      | error e => rfl
      | ok nh =>
        dsimp only
        rw [updateStep2_not_truthy cfg cr nh hjs,
            updateStep2_not_truthy {cfg with workspacePath := some ws, agentId := none} cr2 nh
              rfl,
            buildRegistration_agentId_none cfg now h, hws, h]
        rfl
  · intro cfg cr now tx ch hb
    rw [updateMain] at hb
    cases hws : cfg.workspacePath with
    | none =>
      rw [hws] at hb
      dsimp only at hb
      exact UpdateResult.noConfusion hb
    | some ws =>
      rw [hws] at hb
      dsimp only at hb
      cases hh : hashIdentityFiles ws with
      | error e =>
        rw [hh] at hb
        dsimp only at hb
        exact UpdateResult.noConfusion hb
      | ok nh =>
        rw [hh] at hb
        dsimp only at hb
        cases hs2 : updateStep2 cfg cr nh with
        | none =>
          rw [hs2] at hb
          dsimp only at hb
          exact UpdateResult.noConfusion hb
        | some changes =>
          rw [hs2] at hb
          dsimp only at hb
          cases hbr : buildRegistration cfg now with
          | error e =>
            rw [hbr] at hb
            dsimp only at hb
            exact UpdateResult.noConfusion hb
          | ok reg =>
            rw [hbr] at hb
            dsimp only at hb
            by_cases hid : jsNumTruthy cfg.agentId = true
            · rw [if_pos hid] at hb
              injection hb with h1 h2
              exact ⟨fun _ => ⟨cfg.agentId.getD 0, toBase64DataURI reg, h1.symm⟩, fun _ => hid⟩
            · rw [if_neg hid] at hb
              injection hb with h1 h2
              constructor
              · intro hx
                exact absurd hx hid
              · intro hex
                rcases hex with ⟨i, u, hu⟩
                rw [← h1] at hu
                exact Tx.noConfusion hu

theorem agentId_zero_not_registered_witness :
    buildRegistration configC10 "t" = buildRegistration {configC10 with agentId := none} "t"
    ∧ jsGet regC10 "registrations" = some (.arr [])
    ∧ updateMain configC10 crC9 "t" = updateMain {configC10 with agentId := none} crC6 "t"
    ∧ (jsNumTruthy configC10.agentId = true
        ↔ ∃ i u, Tx.registerTx (toBase64DataURI regC10) = .updateURITx i u) :=
  ⟨agentId_zero_not_registered.1 configC10 "t" rfl,
   agentId_zero_not_registered.2.1 configC10 "t" regC10 rfl (by rfl),
   agentId_zero_not_registered.2.2.1 configC10 crC9 crC6 "t" rfl,
   agentId_zero_not_registered.2.2.2 configC10 crC6 "t"
     (.registerTx (toBase64DataURI regC10)) [] (by rfl)⟩

end Soulbound

namespace Soulbound

set_option maxRecDepth 2000000
set_option maxHeartbeats 2000000

/-- C8: the verify CLI terminates with exactly one of the exit codes
0, 1, 2, 3, and the codes match the outcome classes: a failing config
load, a falsy workspace, a failing local hashing, a failing
expected-hashes read and a failing chain read each exit 3; in offline
mode with a readable hash file, and in online mode with a registration
carrying a truthy `identityFiles` block, the code is 0 when the
verification result has `verified = true` and 1 otherwise; a missing
registration, a registration without a truthy `identityFiles` block,
and the no-agent-id/no-offline-file run each exit 2. -/
theorem verifyMain_exit_codes :
    (∀ (o : VOpts) (cr : ChainReads),
        verifyMain o cr = 0 ∨ verifyMain o cr = 1 ∨ verifyMain o cr = 2 ∨ verifyMain o cr = 3)
    ∧ (∀ (o : VOpts) (cr : ChainReads) (e : String),
        o.configLoad = some (.error e) → verifyMain o cr = 3)
    ∧ (∀ (o : VOpts) (cr : ChainReads),
        o.configLoad = none → o.workspace = none → verifyMain o cr = 3)
    ∧ (∀ (o : VOpts) (cr : ChainReads) (ws : Workspace) (e : String),
        o.configLoad = none → o.workspace = some ws →
        hashIdentityFiles ws = .error e → verifyMain o cr = 3)
    ∧ (∀ (o : VOpts) (cr : ChainReads) (ws : Workspace) (lh : HashResults) (e : String),
        o.configLoad = none → o.workspace = some ws →
        hashIdentityFiles ws = .ok lh →
        o.offline = true → o.expectedPath = true →
        o.expectedRead = .error e → verifyMain o cr = 3)
    ∧ (∀ (o : VOpts) (cr : ChainReads) (ws : Workspace) (lh : HashResults)
          (j : Json) (r : VerifyResult),
        o.configLoad = none → o.workspace = some ws →
        hashIdentityFiles ws = .ok lh →
        o.offline = true → o.expectedPath = true →
        o.expectedRead = .ok j →
        verifyIdentityFilesJ ws j = .ok r →
        verifyMain o cr = if r.verified then 0 else 1)
    ∧ (∀ (o : VOpts) (cr : ChainReads) (ws : Workspace) (lh : HashResults) (e : String),
        o.configLoad = none → o.workspace = some ws →
        hashIdentityFiles ws = .ok lh →
        (o.offline && o.expectedPath) = false →
        jsNumTruthy o.agentId = true →
        lookupAgent cr (o.agentId.getD 0) = .error e →
        verifyMain o cr = 3)
    ∧ (∀ (o : VOpts) (cr : ChainReads) (ws : Workspace) (lh : HashResults) (a : ChainAgent),
        o.configLoad = none → o.workspace = some ws →
        hashIdentityFiles ws = .ok lh →
        (o.offline && o.expectedPath) = false →
        jsNumTruthy o.agentId = true →
        lookupAgent cr (o.agentId.getD 0) = .ok a →
        a.registration = none →
        verifyMain o cr = 2)
    ∧ (∀ (o : VOpts) (cr : ChainReads) (ws : Workspace) (lh : HashResults) (a : ChainAgent)
          (reg : Json),
        o.configLoad = none → o.workspace = some ws →
        hashIdentityFiles ws = .ok lh →
        (o.offline && o.expectedPath) = false →
        jsNumTruthy o.agentId = true →
        lookupAgent cr (o.agentId.getD 0) = .ok a →
        a.registration = some reg →
        jsGet reg "identityFiles" = none →
        verifyMain o cr = 2)
    ∧ (∀ (o : VOpts) (cr : ChainReads) (ws : Workspace) (lh : HashResults) (a : ChainAgent)
          (reg ifs : Json),
        o.configLoad = none → o.workspace = some ws →
        hashIdentityFiles ws = .ok lh →
        (o.offline && o.expectedPath) = false →
        jsNumTruthy o.agentId = true →
        lookupAgent cr (o.agentId.getD 0) = .ok a →
        a.registration = some reg →
        jsGet reg "identityFiles" = some ifs →
        jsTruthy ifs = false →
        verifyMain o cr = 2)
    ∧ (∀ (o : VOpts) (cr : ChainReads) (ws : Workspace) (lh : HashResults) (a : ChainAgent)
          (reg ifs : Json) (r : VerifyResult),
        o.configLoad = none → o.workspace = some ws →
        hashIdentityFiles ws = .ok lh →
        (o.offline && o.expectedPath) = false →
        jsNumTruthy o.agentId = true →
        lookupAgent cr (o.agentId.getD 0) = .ok a →
        a.registration = some reg →
        jsGet reg "identityFiles" = some ifs →
        jsTruthy ifs = true →
        verifyIdentityFilesJ ws ifs = .ok r →
        verifyMain o cr = if r.verified then 0 else 1)
    ∧ (∀ (o : VOpts) (cr : ChainReads) (ws : Workspace) (lh : HashResults),
        o.configLoad = none → o.workspace = some ws →
        hashIdentityFiles ws = .ok lh →
        (o.offline && o.expectedPath) = false →
        jsNumTruthy o.agentId = false →
        verifyMain o cr = 2) := by
  refine ⟨?_, ?_, ?_, ?_, ?_, ?_, ?_, ?_, ?_, ?_, ?_, ?_⟩
  · intro o cr
    unfold verifyMain
    repeat' split
    all_goals omega
  · intro o cr e hc
    rw [verifyMain, mergeOpts, hc]
  · intro o cr hc hw
    have hm : mergeOpts o = .ok (o.workspace, o.agentId) := by rw [mergeOpts, hc]
    rw [verifyMain, hm, hw]
  · intro o cr ws e hc hw hh
    have hm : mergeOpts o = .ok (o.workspace, o.agentId) := by rw [mergeOpts, hc]
    rw [verifyMain, hm, hw]
    dsimp only
    rw [hh]
  · intro o cr ws lh e hc hw hh ho hp her
    have hm : mergeOpts o = .ok (o.workspace, o.agentId) := by rw [mergeOpts, hc]
    rw [verifyMain, hm, hw]
    dsimp only
    rw [hh]
    dsimp only
    rw [if_pos (by rw [ho, hp]; rfl), her]
  · intro o cr ws lh j r hc hw hh ho hp her hv
    have hm : mergeOpts o = .ok (o.workspace, o.agentId) := by rw [mergeOpts, hc]
    rw [verifyMain, hm, hw]
    dsimp only
    rw [hh]
    dsimp only
    rw [if_pos (by rw [ho, hp]; rfl), her]
    dsimp only
    rw [hv]
  · intro o cr ws lh e hc hw hh hop hid hla
    have hm : mergeOpts o = .ok (o.workspace, o.agentId) := by rw [mergeOpts, hc]
    rw [verifyMain, hm, hw]
    dsimp only
    rw [hh]
    dsimp only
    rw [if_neg (by rw [hop]; exact Bool.false_ne_true), if_pos hid, hla]
  · intro o cr ws lh a hc hw hh hop hid hla hreg
    have hm : mergeOpts o = .ok (o.workspace, o.agentId) := by rw [mergeOpts, hc]
    rw [verifyMain, hm, hw]
    dsimp only
    rw [hh]
    dsimp only
    rw [if_neg (by rw [hop]; exact Bool.false_ne_true), if_pos hid, hla]
    dsimp only
    rw [hreg]
  · intro o cr ws lh a reg hc hw hh hop hid hla hreg hifs
    have hm : mergeOpts o = .ok (o.workspace, o.agentId) := by rw [mergeOpts, hc]
    rw [verifyMain, hm, hw]
    dsimp only
    rw [hh]
    dsimp only
    rw [if_neg (by rw [hop]; exact Bool.false_ne_true), if_pos hid, hla]
    dsimp only
    rw [hreg]
    dsimp only
    rw [hifs]
  · intro o cr ws lh a reg ifs hc hw hh hop hid hla hreg hifs ht
    have hm : mergeOpts o = .ok (o.workspace, o.agentId) := by rw [mergeOpts, hc]
    rw [verifyMain, hm, hw]
    dsimp only
    rw [hh]
    dsimp only
    rw [if_neg (by rw [hop]; exact Bool.false_ne_true), if_pos hid, hla]
    dsimp only
    rw [hreg]
    dsimp only
    rw [hifs]
    dsimp only
    rw [if_neg (by rw [ht]; exact Bool.false_ne_true)]
  · intro o cr ws lh a reg ifs r hc hw hh hop hid hla hreg hifs ht hv
    have hm : mergeOpts o = .ok (o.workspace, o.agentId) := by rw [mergeOpts, hc]
    rw [verifyMain, hm, hw]
    dsimp only
    rw [hh]
    dsimp only
    rw [if_neg (by rw [hop]; exact Bool.false_ne_true), if_pos hid, hla]
    dsimp only
    rw [hreg]
    dsimp only
    rw [hifs]
    dsimp only
    rw [if_pos ht, hv]
  · intro o cr ws lh hc hw hh hop hid
    have hm : mergeOpts o = .ok (o.workspace, o.agentId) := by rw [mergeOpts, hc]
    rw [verifyMain, hm, hw]
    dsimp only
    rw [hh]
    dsimp only
    rw [if_neg (by rw [hop]; exact Bool.false_ne_true),
        if_neg (by rw [hid]; exact Bool.false_ne_true)]

theorem verifyMain_exit_codes_witness :
    (verifyMain oC8 crC6 = if rC8.verified then 0 else 1) ∧ rC8.verified = true :=
  ⟨verifyMain_exit_codes.2.2.2.2.2.1 oC8 crC6 wsABC lhABC expJsonC8 rC8
     rfl rfl (by rfl) rfl rfl rfl (by rfl),
   by decide⟩

end Soulbound
